import Mathlib

/-!
CH341 USB-I2C bridge driver (`i2c-ch341.c`): shallow embedding

The driver talks to the bridge through `usb_bulk_msg` only.  The embedding
keeps the driver state (`struct i2c_ch341_u2c`) and the world outside the
driver (`Host`: what each bulk call answers, and the record of the bulk calls
made so far) as explicit values that every function takes and returns.

Machine integers: `u8` values are `Nat` reduced `% 256` where the C code
narrows, `__u16` values are `Nat` reduced `% 65536`, and C `int` is `Int`.

Undefined behaviour: `ch341_usb_cmd_write_addr` stores past the end of its
local array `u8 msg[256]` when the write is longer than 250 bytes.  The
embedding gives such a call no result (`none`), and so does everything that
runs it: `xfer_msg`, `xfer_loop` and `ch341_usb_xfer` return an `Option`.
-/

namespace CH341

/-! ## Constants of the source -/

def mCH341A_CMD_I2C_STREAM : Nat := 0xAA
def mCH341A_CMD_I2C_STM_STA : Nat := 0x74
def mCH341A_CMD_I2C_STM_STO : Nat := 0x75
def mCH341A_CMD_I2C_STM_OUT : Nat := 0x80
def mCH341A_CMD_I2C_STM_IN : Nat := 0xC0
def mCH341_PACKET_LENGTH : Nat := 32
def mCH341A_CMD_I2C_STM_MAX : Nat := min 0x3F mCH341_PACKET_LENGTH
def mCH341A_CMD_I2C_STM_SET : Nat := 0x60
def mCH341A_CMD_I2C_STM_END : Nat := 0x00

def RESP_OK : Nat := 0x00
def RESP_NACK : Nat := 0x07
def RESP_TIMEOUT : Nat := 0x09

def DIOLAN_OUTBUF_LEN : Nat := 128
def DIOLAN_FLUSH_LEN : Nat := DIOLAN_OUTBUF_LEN - 4
def DIOLAN_INBUF_LEN : Nat := 256

/-! Kernel constants used by the source (`linux/errno.h`, `linux/i2c.h`). -/

def EIO : Int := 5
def ENXIO : Int := 6
def EINVAL : Int := 22
def EPROTO : Int := 71
def ETIMEDOUT : Int := 110

def I2C_M_RD : Nat := 0x0001
def I2C_M_RECV_LEN : Nat := 0x0400
def I2C_SMBUS_BLOCK_MAX : Nat := 32

/-! ## Data model -/

/-- Answer of the USB stack to one `usb_bulk_msg` call: the return value
(0 on success, a negative errno otherwise) and, for an IN transfer, the bytes
delivered to the receive buffer (`actual` is their number). -/
structure BulkReply where
  ret : Int
  frame : List Nat

/-- One `usb_bulk_msg` call as seen on the bus. -/
inductive UsbCall where
  | bulkOut (data : List Nat)
  | bulkIn
  deriving DecidableEq, Repr

/-- Everything outside the driver.  `reply k` is the answer to the `k`-th bulk
call (counted from 0), `log` the bulk calls made so far, oldest first, and
`stack_byte i j` the indeterminate content of the never-assigned local
`u8 byte` in iteration `j` of the copy loop of message `i`.  `flushed` is a
record kept beside the log: for each bulk OUT write, the length `olen` passed
to `usb_bulk_msg` and the command count `ocount` of the session at that
moment; nothing reads it. -/
structure Host where
  reply : Nat → BulkReply
  stack_byte : Nat → Nat → Nat
  log : List UsbCall
  flushed : List (Int × Int) := []

/-- The fields of `struct i2c_ch341_u2c` that the transfer code reads or
writes. -/
structure i2c_ch341_u2c where
  obuffer : List Nat
  ibuffer : List Nat
  olen : Int
  ocount : Int
  ilen : Int

/-- The fields of `struct i2c_msg`. -/
structure i2c_msg where
  addr : Nat
  flags : Nat
  len : Nat
  buf : List Nat
  deriving DecidableEq, Repr

/-! ## The USB layer -/

/-- Copy of `n` bytes to the start of `dst`, as `memcpy(dst, src, n)` does when
both arrays hold at least `n` bytes (anything else is undefined in C). -/
def memcpy (dst src : List Nat) (n : Nat) : List Nat :=
  src.take n ++ dst.drop n

/-- Call `usb_bulk_msg` on the OUT pipe with the given bytes. -/
def usb_bulk_msg_out (h : Host) (data : List Nat) : Int × Host :=
  ((h.reply h.log.length).ret, { h with log := h.log ++ [UsbCall.bulkOut data] })

/-- Call `usb_bulk_msg` on the IN pipe asking for at most `size` bytes: the
return value, the bytes delivered, and the host afterwards. -/
def usb_bulk_msg_in (h : Host) (size : Nat) : Int × List Nat × Host :=
  ((h.reply h.log.length).ret, (h.reply h.log.length).frame.take size,
    { h with log := h.log ++ [UsbCall.bulkIn] })

/-- The `switch (dev->ibuffer[actual - 1])` of `ch341_usb_transfer`, for loop
index `i`. -/
def decode_status (i : Nat) (ibuffer : List Nat) (actual : Nat) : Int :=
  let s := ibuffer.getD (actual - 1) 0
  if s = RESP_NACK then (if i = 1 then - ENXIO else - EIO)
  else if s = RESP_TIMEOUT then -ETIMEDOUT
  else if s = RESP_OK then (actual : Int) - 1
  else - EIO

/-- Body of the response loop of `ch341_usb_transfer` for index `i`. -/
def transfer_read_body (i : Nat) (ret : Int) (dev : i2c_ch341_u2c) (h : Host) :
    Int × i2c_ch341_u2c × Host :=
  let (tmpret, frame, h1) := usb_bulk_msg_in h DIOLAN_INBUF_LEN
  let dev1 := { dev with ibuffer := memcpy dev.ibuffer frame frame.length }
  let actual := frame.length
  if ret < 0 then (ret, dev1, h1)
  else if tmpret = 0 ∧ actual > 0 then (decode_status i dev1.ibuffer actual, dev1, h1)
  else (tmpret, dev1, h1)

/-- The loop `for (i = 0; i < dev->ocount; i++)`, with `n` iterations left. -/
def transfer_read_loop : Nat → Nat → Int → i2c_ch341_u2c → Host →
    Int × i2c_ch341_u2c × Host
  | 0, _, ret, dev, h => (ret, dev, h)
  | n + 1, i, ret, dev, h =>
    let (ret1, dev1, h1) := transfer_read_body i ret dev h
    transfer_read_loop n (i + 1) ret1 dev1 h1

/-- Send command to device, and get response (`ch341_usb_transfer`).  The
line for `h0` notes `olen` and `ocount` in the record `flushed` of the host
and has no counterpart in the source. -/
def ch341_usb_transfer (dev : i2c_ch341_u2c) (h : Host) : Int × i2c_ch341_u2c × Host :=
  if dev.olen = 0 ∨ dev.ocount = 0 then (-EINVAL, dev, h)
  else
    let h0 := { h with flushed := h.flushed ++ [(dev.olen, dev.ocount)] }
    let (ret, h1) := usb_bulk_msg_out h0 (dev.obuffer.take dev.olen.toNat)
    let (ret2, dev2, h2) :=
      if dev.ilen ≠ 0 then
        let dev1 := { dev with ocount := 1 }
        transfer_read_loop dev1.ocount.toNat 0 ret dev1 h1
      else (ret, dev, h1)
    (ret2, { dev2 with olen := 0, ocount := 0, ilen := 0 }, h2)

/-- Flush now or when the buffer is nearly full (`ch341_write_cmd`). -/
def ch341_write_cmd (dev : i2c_ch341_u2c) (h : Host) (flush : Bool) :
    Int × i2c_ch341_u2c × Host :=
  if flush ∨ dev.olen ≥ DIOLAN_FLUSH_LEN then ch341_usb_transfer dev h
  else (0, dev, h)

/-- Put a command of `len` bytes in the output buffer (`ch341_usb_cmd_msg`). -/
def ch341_usb_cmd_msg (dev : i2c_ch341_u2c) (h : Host) (msg : List Nat) (len : Nat)
    (flush : Bool) : Int × i2c_ch341_u2c × Host :=
  let dev1 := { dev with obuffer := memcpy dev.obuffer msg len }
  let dev2 := { dev1 with olen := len }
  let dev3 := { dev2 with ocount := dev2.ocount + 1 }
  ch341_write_cmd dev3 h flush

/-- Read command for one message (`ch341_usb_cmd_read_addr`); `addr`, `datalen`
and `ilen` are `u8` arguments. -/
def ch341_usb_cmd_read_addr (dev : i2c_ch341_u2c) (h : Host) (addr : Nat)
    (_data : List Nat) (_datalen : Nat) (ilen : Nat) : Int × i2c_ch341_u2c × Host :=
  let msg := [mCH341A_CMD_I2C_STREAM,
              mCH341A_CMD_I2C_STM_STA,
              mCH341A_CMD_I2C_STM_OUT ||| 1,
              addr ||| 0x01,
              mCH341A_CMD_I2C_STM_IN ||| ilen,
              mCH341A_CMD_I2C_STM_STO,
              mCH341A_CMD_I2C_STM_END]
  let msgsize := 4 + 3
  let dev1 := { dev with ilen := ilen }
  ch341_usb_cmd_msg dev1 h msg msgsize true

/-- Write command for one message (`ch341_usb_cmd_write_addr`); `addr` and
`datalen` are `u8` arguments.  `msg` is the 256-byte local array: four
initialised bytes, the rest zero.  The array holds `msgsize = 4 + 2 + datalen`
bytes only for `datalen <= 250`; for a longer write `memcpy(msg+4, ...)` or the
stores to `msg[msgsize-2]` and `msg[msgsize-1]` go past its end, which is
undefined behaviour: the call has no result. -/
def ch341_usb_cmd_write_addr (dev : i2c_ch341_u2c) (h : Host) (addr : Nat)
    (data : List Nat) (datalen : Nat) : Option (Int × i2c_ch341_u2c × Host) :=
  let msg := [mCH341A_CMD_I2C_STREAM,
              mCH341A_CMD_I2C_STM_STA,
              mCH341A_CMD_I2C_STM_OUT ||| datalen,
              addr &&& 0xfe] ++ List.replicate 252 0
  let msgsize := 4 + 2 + datalen
  if msgsize > 256 then none
  else
    let msg1 := msg.take 4 ++ memcpy (msg.drop 4) data datalen
    let msg2 := msg1.set (msgsize - 2) mCH341A_CMD_I2C_STM_STO
    let msg3 := msg2.set (msgsize - 1) mCH341A_CMD_I2C_STM_END
    let dev1 := { dev with ilen := (datalen : Int) + 1 }
    some (ch341_usb_cmd_msg dev1 h msg3 7 true)

/-- Start condition (`ch341_i2c_start`). -/
def ch341_i2c_start (dev : i2c_ch341_u2c) (h : Host) : Int × i2c_ch341_u2c × Host :=
  ch341_usb_cmd_msg dev h
    [mCH341A_CMD_I2C_STREAM, mCH341A_CMD_I2C_STM_STA, mCH341A_CMD_I2C_STM_END] 3 true

/-- Stop condition (`ch341_i2c_stop`). -/
def ch341_i2c_stop (dev : i2c_ch341_u2c) (h : Host) : Int × i2c_ch341_u2c × Host :=
  ch341_usb_cmd_msg dev h
    [mCH341A_CMD_I2C_STREAM, mCH341A_CMD_I2C_STM_STO, mCH341A_CMD_I2C_STM_END] 3 true

/-- Speed command (`ch341_set_speed`); `speed` is a `u8` argument. -/
def ch341_set_speed (dev : i2c_ch341_u2c) (h : Host) (speed : Nat) :
    Int × i2c_ch341_u2c × Host :=
  ch341_usb_cmd_msg dev h
    [mCH341A_CMD_I2C_STREAM, mCH341A_CMD_I2C_STM_SET &&& (speed &&& 0x03),
      mCH341A_CMD_I2C_STM_END] 3 true

/-- The loop of `ch341_flush_input` with `n` iterations left: read until a
bulk IN read fails or delivers nothing. -/
def ch341_flush_input_loop : Nat → i2c_ch341_u2c → Host → i2c_ch341_u2c × Host
  | 0, dev, h => (dev, h)
  | n + 1, dev, h =>
    let (ret, frame, h1) := usb_bulk_msg_in h DIOLAN_INBUF_LEN
    let dev1 := { dev with ibuffer := memcpy dev.ibuffer frame frame.length }
    if ret < 0 ∨ frame.length = 0 then (dev1, h1)
    else ch341_flush_input_loop n dev1 h1

/-- Flush input queue (`ch341_flush_input`): at most 10 reads. -/
def ch341_flush_input (dev : i2c_ch341_u2c) (h : Host) : i2c_ch341_u2c × Host :=
  ch341_flush_input_loop 10 dev h

/-- The speed grade that `ch341_init` computes from the module parameter
`frequency` (an unsigned number of Hz). -/
def init_speed (frequency : Nat) : Nat :=
  if frequency ≥ 750000 then 3
  else if frequency ≥ 400000 then 2
  else if frequency ≥ 200000 ∨ frequency = 0 then 1
  else 0

/-- Initialisation (`ch341_init`) for the module parameter `frequency`. -/
def ch341_init (frequency : Nat) (dev : i2c_ch341_u2c) (h : Host) :
    Int × i2c_ch341_u2c × Host :=
  let speed := init_speed frequency
  let (ret, dev1, h1) := ch341_set_speed dev h speed
  if ret < 0 then (ret, dev1, h1)
  else
    let (dev2, h2) := ch341_flush_input dev1 h1
    (ret, dev2, h2)

/-! ## The I2C layer -/

/-- The loop `for (j = 0; j < pmsg->len; j++)` of `ch341_usb_xfer`, from index
`j`, with `fuel` bounding the iterations left; `byte j` is the content of the
local `byte` in iteration `j`.  The result is `-EPROTO` when the loop leaves
through `goto abort`, and `ret` unchanged otherwise. -/
def xfer_copy_loop (byte : Nat → Nat) (ret : Int) : Nat → Nat → i2c_msg → Int × i2c_msg
  | 0, _, m => (ret, m)
  | fuel + 1, j, m =>
    if j < m.len then
      let b := byte j % 256
      if j = 0 ∧ m.flags &&& I2C_M_RECV_LEN ≠ 0 then
        if b = 0 ∨ b > I2C_SMBUS_BLOCK_MAX then (-EPROTO, m)
        else
          let m1 := { m with len := (m.len + b) % 65536 }
          xfer_copy_loop byte ret fuel (j + 1) { m1 with buf := m1.buf.set j b }
      else xfer_copy_loop byte ret fuel (j + 1) { m with buf := m.buf.set j b }
    else (ret, m)

/-- Body of the message loop of `ch341_usb_xfer` for message `i`.  The returned
value is the `ret` of the C code; it is negative exactly when the body leaves
through `goto abort`.  There is no result when the write command has none. -/
def xfer_msg (i : Nat) (pmsg : i2c_msg) (dev : i2c_ch341_u2c) (h : Host) :
    Option (Int × i2c_msg × i2c_ch341_u2c × Host) :=
  if pmsg.flags &&& I2C_M_RD ≠ 0 then
    let (ret, dev1, h1) :=
      ch341_usb_cmd_read_addr dev h ((pmsg.addr <<< 1) % 256) pmsg.buf (pmsg.len % 256) 1
    if ret < 0 then some (ret, pmsg, dev1, h1)
    else
      let (ret1, pmsg1) := xfer_copy_loop (h1.stack_byte i) ret 65536 0 pmsg
      some (ret1, pmsg1, dev1, h1)
  else
    match ch341_usb_cmd_write_addr dev h ((pmsg.addr <<< 1) % 256) pmsg.buf
        (pmsg.len % 256) with
    | none => none
    | some (ret, dev1, h1) => some (ret, pmsg, dev1, h1)

/-- The loop `for (i = 0; i < num; i++)` of `ch341_usb_xfer` over the messages
not yet processed.  In the result, `none` means the loop ran to its end,
`some ret` that it left through `goto abort` with that `ret`.  There is no
result when a message step that is reached has none. -/
def xfer_loop : Nat → List i2c_msg → i2c_ch341_u2c → Host →
    Option (Option Int × List i2c_msg × i2c_ch341_u2c × Host)
  | _, [], dev, h => some (none, [], dev, h)
  | i, pmsg :: rest, dev, h =>
    match xfer_msg i pmsg dev h with
    | none => none
    | some (ret, pmsg1, dev1, h1) =>
      if ret < 0 then some (some ret, pmsg1 :: rest, dev1, h1)
      else
        match xfer_loop (i + 1) rest dev1 h1 with
        | none => none
        | some (r, rest1, dev2, h2) => some (r, pmsg1 :: rest1, dev2, h2)

/-- The `master_xfer` entry point (`ch341_usb_xfer`); `num` is the length of
`msgs`.  There is no result when the message loop has none. -/
def ch341_usb_xfer (dev : i2c_ch341_u2c) (h : Host) (msgs : List i2c_msg) :
    Option (Int × List i2c_msg × i2c_ch341_u2c × Host) :=
  let (ret0, dev0, h0) := ch341_i2c_start dev h
  if ret0 < 0 then some (ret0, msgs, dev0, h0)
  else
    match xfer_loop 0 msgs dev0 h0 with
    | none => none
    | some (r, msgs1, dev1, h1) =>
      let ret : Int := match r with
        | some e => e
        | none => (msgs.length : Int)
      let (sret, dev2, h2) := ch341_i2c_stop dev1 h1
      let ret1 := if sret < 0 ∧ ret ≥ 0 then sret else ret
      some (ret1, msgs1, dev2, h2)

/-! ## Observations used in the statements -/

/-- Return value of the bulk call that `h` answers next. -/
def next_ret (h : Host) : Int := (h.reply h.log.length).ret

/-- Return value of the bulk call after the next one. -/
def second_ret (h : Host) : Int := (h.reply (h.log.length + 1)).ret

/-- Frame delivered by the bulk call after the next one. -/
def second_frame (h : Host) : List Nat := (h.reply (h.log.length + 1)).frame

/-- Number of bulk IN reads in a call log. -/
def bulk_in_count (l : List UsbCall) : Nat := l.count UsbCall.bulkIn

/-- Bulk OUT payloads of a call log, in order. -/
def bulk_out_data : List UsbCall → List (List Nat)
  | [] => []
  | UsbCall.bulkOut d :: l => d :: bulk_out_data l
  | UsbCall.bulkIn :: l => bulk_out_data l

/-- Number of read-type messages (`I2C_M_RD` set) in a message list. -/
def read_msg_count (msgs : List i2c_msg) : Nat :=
  msgs.countP (fun m => m.flags &&& I2C_M_RD ≠ 0)

/-- The host after the bulk OUT write of `ch341_usb_transfer` from the session
`dev`. -/
def host_written (dev : i2c_ch341_u2c) (h : Host) : Host :=
  { h with flushed := h.flushed ++ [(dev.olen, dev.ocount)],
           log := h.log ++ [UsbCall.bulkOut (dev.obuffer.take dev.olen.toNat)] }

/-- Session and host reached from `s` when the first `k` messages of the list
are processed one after the other by the loop body, the first with index `i`;
no state when one of these steps has no result. -/
def steps_state : Nat → Nat → List i2c_msg → i2c_ch341_u2c × Host →
    Option (i2c_ch341_u2c × Host)
  | 0, _, _, s => some s
  | _ + 1, _, [], s => some s
  | k + 1, i, m :: rest, s =>
    match xfer_msg i m s.1 s.2 with
    | none => none
    | some r => steps_state k (i + 1) rest r.2.2

/-- Return value of the loop body for message number `k` of the list, run in
the state that the `k` messages before it leave behind; no value when that
step or one before it has no result, or when the list has no such message. -/
def step_ret : Nat → Nat → List i2c_msg → i2c_ch341_u2c × Host → Option Int
  | _, _, [], _ => none
  | 0, i, m :: _, s => (xfer_msg i m s.1 s.2).map (fun r => r.1)
  | k + 1, i, m :: rest, s =>
    match xfer_msg i m s.1 s.2 with
    | none => none
    | some r => step_ret k (i + 1) rest r.2.2

/-- Return value of the start command of a transaction. -/
def start_ret (dev : i2c_ch341_u2c) (h : Host) : Int := (ch341_i2c_start dev h).1

/-- Return value of the step of message `k` in a transaction whose start command
and earlier message steps have run. -/
def msg_ret (dev : i2c_ch341_u2c) (h : Host) (msgs : List i2c_msg) (k : Nat) : Option Int :=
  step_ret k 0 msgs (ch341_i2c_start dev h).2

/-- Session and host of a transaction after the start command and the first
`k` message steps. -/
def state_after (dev : i2c_ch341_u2c) (h : Host) (msgs : List i2c_msg) (k : Nat) :
    Option (i2c_ch341_u2c × Host) :=
  steps_state k 0 msgs (ch341_i2c_start dev h).2

/-- Return value of the stop command when it runs after the start command and
the first `k` message steps. -/
def stop_ret (dev : i2c_ch341_u2c) (h : Host) (msgs : List i2c_msg) (k : Nat) : Option Int :=
  (state_after dev h msgs k).map (fun s => (ch341_i2c_stop s.1 s.2).1)

/-- The step returned and succeeded: its value is not negative. -/
def succeeded (v : Option Int) : Prop := ∃ r, v = some r ∧ 0 ≤ r

/-- The step of the message stays inside the local array `msg[256]` of
`ch341_usb_cmd_write_addr`: the message is a read, or a write of at most 250
bytes (`pmsg->len` narrowed to `u8`). -/
def msg_in_bounds (m : i2c_msg) : Prop := m.flags &&& I2C_M_RD ≠ 0 ∨ m.len % 256 ≤ 250

/-- Number of bulk OUT writes in a call log that carry exactly the bytes `d`. -/
def out_count (d : List Nat) (l : List UsbCall) : Nat := (bulk_out_data l).count d

/-! ## Test fixtures -/

/-- A session as left by `kzalloc`: everything zero. -/
def dev_zero : i2c_ch341_u2c :=
  { obuffer := List.replicate 128 0, ibuffer := List.replicate 256 0,
    olen := 0, ocount := 0, ilen := 0 }

/-- A host whose bulk calls all succeed; every IN transfer delivers `frame`. -/
def host_ok (frame : List Nat) : Host :=
  { reply := fun _ => { ret := 0, frame := frame }, stack_byte := fun _ _ => 0, log := [] }

/-- A host that answers the bulk calls from a script, in order, and with
success and an empty frame once the script is used up. -/
def host_script (l : List BulkReply) : Host :=
  { reply := fun k => l.getD k { ret := 0, frame := [] }, stack_byte := fun _ _ => 0,
    log := [] }

/-- A one-byte write message to the 7-bit address 0x50. -/
def msg_write_one : i2c_msg := { addr := 0x50, flags := 0, len := 1, buf := [0x10] }

/-- A read message of `len` bytes from the 7-bit address 0x50. -/
def msg_read (len : Nat) : i2c_msg :=
  { addr := 0x50, flags := I2C_M_RD, len := len, buf := List.replicate len 0 }

/-- A block-read message (`I2C_M_RD | I2C_M_RECV_LEN`) from the 7-bit address
0x50: one byte requested, room for the longest block. -/
def msg_recv_len : i2c_msg :=
  { addr := 0x50, flags := I2C_M_RD ||| I2C_M_RECV_LEN, len := 1,
    buf := List.replicate (I2C_SMBUS_BLOCK_MAX + 2) 0 }

/-- A host whose bulk calls all succeed, every IN transfer delivering `frame`,
and whose stack holds `b` where the local `byte` lives. -/
def host_stack (frame : List Nat) (b : Nat) : Host :=
  { reply := fun _ => { ret := 0, frame := frame }, stack_byte := fun _ _ => b, log := [] }


/-! ## Flushing: `ch341_usb_transfer` -/

@[simp] theorem host_written_log (dev : i2c_ch341_u2c) (h : Host) :
    (host_written dev h).log =
      h.log ++ [UsbCall.bulkOut (dev.obuffer.take dev.olen.toNat)] := rfl

@[simp] theorem host_written_reply (dev : i2c_ch341_u2c) (h : Host) :
    (host_written dev h).reply = h.reply := rfl

@[simp] theorem host_written_stack_byte (dev : i2c_ch341_u2c) (h : Host) :
    (host_written dev h).stack_byte = h.stack_byte := rfl

@[simp] theorem host_written_flushed (dev : i2c_ch341_u2c) (h : Host) :
    (host_written dev h).flushed = h.flushed ++ [(dev.olen, dev.ocount)] := rfl

theorem getD_last_of_append (pre rest : List Nat) (s : Nat) :
    ((pre ++ [s]) ++ rest).getD ((pre ++ [s]).length - 1) 0 = s := by
  have h : ((pre ++ [s]) ++ rest)[pre.length]? = some s := by
    rw [List.append_assoc, List.getElem?_append_right (le_refl _)]
    simp
  simp only [List.length_append, List.length_singleton, Nat.add_sub_cancel,
    List.getD_eq_getElem?_getD, h, Option.getD_some]

/-- After a frame `pre ++ [s]` has been received, `ibuffer[actual - 1]` is `s`. -/
theorem status_byte_of_frame (ib pre : List Nat) (s : Nat) :
    (memcpy ib (pre ++ [s]) (pre ++ [s]).length).getD ((pre ++ [s]).length - 1) 0 = s := by
  unfold memcpy
  rw [List.take_length]
  exact getD_last_of_append pre _ s

/-- The response loop body on a successful read of a frame `pre ++ [s]`: the
result is decided by the status byte `s` alone. -/
theorem read_body_status (i : Nat) (ret : Int) (dev : i2c_ch341_u2c) (h : Host)
    (pre : List Nat) (s : Nat) (hret : 0 ≤ ret) (hr : next_ret h = 0)
    (hf : (h.reply h.log.length).frame = pre ++ [s]) (hlen : (pre ++ [s]).length ≤ 256) :
    (transfer_read_body i ret dev h).1 =
      if s = RESP_NACK then (if i = 1 then - ENXIO else - EIO)
      else if s = RESP_TIMEOUT then -ETIMEDOUT
      else if s = RESP_OK then (pre.length : Int)
      else - EIO := by
  have htake : (pre ++ [s]).take DIOLAN_INBUF_LEN = pre ++ [s] := List.take_of_length_le hlen
  have hnot : ¬ ret < 0 := by omega
  have hpos : (pre ++ [s]).length > 0 := by simp
  simp only [next_ret] at hr
  simp only [transfer_read_body, usb_bulk_msg_in, hf, htake, hnot, hr, hpos, decode_status,
    status_byte_of_frame, if_false, and_self, if_true]
  simp

/-- What `ch341_usb_transfer` does once the guard is passed and a response is
expected: one OUT write, one IN read, the status decoded at index 0. -/
theorem transfer_expecting (dev : i2c_ch341_u2c) (h : Host)
    (ho : dev.olen ≠ 0) (hc : dev.ocount ≠ 0) (hi : dev.ilen ≠ 0) :
    ch341_usb_transfer dev h =
      ((transfer_read_body 0 (next_ret h) { dev with ocount := 1 }
          (host_written dev h)).1,
        { (transfer_read_body 0 (next_ret h) { dev with ocount := 1 }
          (host_written dev h)).2.1
          with olen := 0, ocount := 0, ilen := 0 },
        (transfer_read_body 0 (next_ret h) { dev with ocount := 1 }
          (host_written dev h)).2.2) := by
  simp [ch341_usb_transfer, ho, hc, hi, usb_bulk_msg_out, transfer_read_loop, next_ret,
    host_written]

/-- C8: with a non-empty buffer, an enqueued command and an expected response,
`ch341_usb_transfer` makes exactly one bulk OUT write of the buffer and then
one bulk IN read, also when the write failed; it returns the write's error if
the write failed, and otherwise the read's error if the read call failed. -/
theorem C8_transfer_first_failure (dev : i2c_ch341_u2c) (h : Host)
    (ho : 0 < dev.olen) (hc : 0 < dev.ocount) (hi : dev.ilen ≠ 0) :
    (ch341_usb_transfer dev h).2.2.log =
        h.log ++ [UsbCall.bulkOut (dev.obuffer.take dev.olen.toNat), UsbCall.bulkIn] ∧
      (next_ret h < 0 → (ch341_usb_transfer dev h).1 = next_ret h) ∧
      (0 ≤ next_ret h → second_ret h < 0 → (ch341_usb_transfer dev h).1 = second_ret h) := by
  rw [transfer_expecting dev h (by omega) (by omega) hi]
  refine ⟨?_, ?_, ?_⟩
  · simp only [transfer_read_body, usb_bulk_msg_in]
    split_ifs <;> simp
  · intro hw
    simp [transfer_read_body, usb_bulk_msg_in, hw]
  · intro hw hr
    have hw1 : ¬ next_ret h < 0 := by omega
    have hr1 : second_ret h ≠ 0 := by omega
    simp only [second_ret] at hr1
    simp [transfer_read_body, usb_bulk_msg_in, hw1, hr1, second_ret]

theorem C8_transfer_first_failure_witness :
    (ch341_usb_transfer { dev_zero with olen := 3, ocount := 1, ilen := 1 }
        { reply := fun _ => { ret := -110, frame := [] }, stack_byte := fun _ _ => 0,
          log := [] }).2.2.log =
      [UsbCall.bulkOut [0, 0, 0], UsbCall.bulkIn] :=
  (C8_transfer_first_failure { dev_zero with olen := 3, ocount := 1, ilen := 1 }
    { reply := fun _ => { ret := -110, frame := [] }, stack_byte := fun _ _ => 0, log := [] }
    (by decide) (by decide) (by decide)).1

/-- C9: with nothing enqueued (`olen = 0` or `ocount = 0`), `ch341_usb_transfer`
returns `-EINVAL`, makes no bulk call, and leaves the session unchanged. -/
theorem C9_transfer_nothing_enqueued (dev : i2c_ch341_u2c) (h : Host)
    (hz : dev.olen = 0 ∨ dev.ocount = 0) :
    ch341_usb_transfer dev h = (-EINVAL, dev, h) := by
  simp [ch341_usb_transfer, hz]

theorem C9_transfer_nothing_enqueued_witness :
    ch341_usb_transfer dev_zero (host_ok []) = (-EINVAL, dev_zero, host_ok []) :=
  C9_transfer_nothing_enqueued dev_zero (host_ok []) (Or.inl rfl)

/-- C10: when the bulk write and the bulk read both succeed and the response
frame (at most 256 bytes) ends in the timeout status 0x09, `ch341_usb_transfer`
returns `-ETIMEDOUT`, whatever the bytes before the status are. -/
theorem C10_transfer_timeout_status (dev : i2c_ch341_u2c) (h : Host) (pre : List Nat)
    (ho : dev.olen ≠ 0) (hc : dev.ocount ≠ 0) (hi : dev.ilen ≠ 0)
    (hw : next_ret h = 0) (hr : second_ret h = 0)
    (hf : second_frame h = pre ++ [RESP_TIMEOUT]) (hlen : (pre ++ [RESP_TIMEOUT]).length ≤ 256) :
    (ch341_usb_transfer dev h).1 = -ETIMEDOUT := by
  rw [transfer_expecting dev h ho hc hi]
  have hb := read_body_status 0 (next_ret h) { dev with ocount := 1 }
    (host_written dev h)
    pre RESP_TIMEOUT (by omega) (by simpa [next_ret, second_ret, host_written] using hr)
    (by simpa [second_frame, host_written] using hf) hlen
  simp only [hb]
  simp [RESP_TIMEOUT, RESP_NACK]

theorem C10_transfer_timeout_status_witness :
    (ch341_usb_transfer { dev_zero with olen := 7, ocount := 1, ilen := 1 }
      (host_ok [0x42, 0x09])).1 = -ETIMEDOUT :=
  C10_transfer_timeout_status { dev_zero with olen := 7, ocount := 1, ilen := 1 }
    (host_ok [0x42, 0x09]) [0x42] (by decide) (by decide) (by decide) rfl rfl rfl (by decide)

/-! ## Decoding and clearing in `ch341_usb_transfer` -/

/-- The receive buffer after the response loop body holds the frame delivered
by the read at its start. -/
theorem read_body_ibuffer (i : Nat) (ret : Int) (dev : i2c_ch341_u2c) (h : Host) :
    (transfer_read_body i ret dev h).2.1.ibuffer =
      memcpy dev.ibuffer ((h.reply h.log.length).frame.take DIOLAN_INBUF_LEN)
        ((h.reply h.log.length).frame.take DIOLAN_INBUF_LEN).length := by
  simp only [transfer_read_body, usb_bulk_msg_in]
  split_ifs <;> rfl

/-- C11: when the bulk write and the bulk read both succeed and the response
frame of `n` bytes (at most 256) ends in the success status 0x00,
`ch341_usb_transfer` returns `n - 1`, the number of bytes before the status,
and the first `n - 1` bytes of the input buffer are those of the frame. -/
theorem C11_transfer_success_strips_status (dev : i2c_ch341_u2c) (h : Host) (pre : List Nat)
    (ho : dev.olen ≠ 0) (hc : dev.ocount ≠ 0) (hi : dev.ilen ≠ 0)
    (hw : next_ret h = 0) (hr : second_ret h = 0)
    (hf : second_frame h = pre ++ [RESP_OK]) (hlen : (pre ++ [RESP_OK]).length ≤ 256) :
    (ch341_usb_transfer dev h).1 = ((pre ++ [RESP_OK]).length : Int) - 1 ∧
      (ch341_usb_transfer dev h).2.1.ibuffer.take ((pre ++ [RESP_OK]).length - 1) = pre := by
  rw [transfer_expecting dev h ho hc hi]
  have hb := read_body_status 0 (next_ret h) { dev with ocount := 1 }
    (host_written dev h)
    pre RESP_OK (by omega) (by simpa [next_ret, second_ret, host_written] using hr)
    (by simpa [second_frame, host_written] using hf) hlen
  have hib := read_body_ibuffer 0 (next_ret h) { dev with ocount := 1 }
    (host_written dev h)
  have hf1 : ((host_written dev h).reply (host_written dev h).log.length).frame =
      pre ++ [RESP_OK] := by simpa [second_frame] using hf
  have htake : (pre ++ [RESP_OK]).take DIOLAN_INBUF_LEN = pre ++ [RESP_OK] :=
    List.take_of_length_le hlen
  constructor
  · simp only [hb]
    simp [RESP_OK, RESP_NACK, RESP_TIMEOUT]
  · simp only [hib, hf1, htake, memcpy, List.take_length, List.length_append,
      List.length_singleton, Nat.add_sub_cancel]
    rw [show List.take (pre.length + 1) (pre ++ [RESP_OK]) = pre ++ [RESP_OK] from
      List.take_of_length_le (by simp), List.append_assoc, List.take_left' rfl]

theorem C11_transfer_success_strips_status_witness :
    (ch341_usb_transfer { dev_zero with olen := 7, ocount := 1, ilen := 1 }
        (host_ok [0x42, 0x00])).1 = (([0x42] ++ [RESP_OK]).length : Int) - 1 ∧
      (ch341_usb_transfer { dev_zero with olen := 7, ocount := 1, ilen := 1 }
        (host_ok [0x42, 0x00])).2.1.ibuffer.take (([0x42] ++ [RESP_OK]).length - 1) = [0x42] :=
  C11_transfer_success_strips_status { dev_zero with olen := 7, ocount := 1, ilen := 1 }
    (host_ok [0x42, 0x00]) [0x42] (by decide) (by decide) (by decide) rfl rfl rfl (by decide)

/-- C15: once `ch341_usb_transfer` hands the buffer to the transport
(`olen > 0` and `ocount > 0`), the session afterwards has `olen = 0`,
`ocount = 0` and `ilen = 0`, whatever the bulk write and the bulk read
answer. -/
theorem C15_transfer_clears_session (dev : i2c_ch341_u2c) (h : Host)
    (ho : 0 < dev.olen) (hc : 0 < dev.ocount) :
    (ch341_usb_transfer dev h).2.1.olen = 0 ∧ (ch341_usb_transfer dev h).2.1.ocount = 0 ∧
      (ch341_usb_transfer dev h).2.1.ilen = 0 := by
  have ho1 : dev.olen ≠ 0 := by omega
  have hc1 : dev.ocount ≠ 0 := by omega
  simp [ch341_usb_transfer, ho1, hc1]

theorem C15_transfer_clears_session_witness :
    (ch341_usb_transfer { dev_zero with olen := 7, ocount := 1, ilen := 2 }
        (host_script [⟨-110, []⟩, ⟨-5, []⟩])).2.1.olen = 0 ∧
      (ch341_usb_transfer { dev_zero with olen := 7, ocount := 1, ilen := 2 }
        (host_script [⟨-110, []⟩, ⟨-5, []⟩])).2.1.ocount = 0 ∧
      (ch341_usb_transfer { dev_zero with olen := 7, ocount := 1, ilen := 2 }
        (host_script [⟨-110, []⟩, ⟨-5, []⟩])).2.1.ilen = 0 :=
  C15_transfer_clears_session { dev_zero with olen := 7, ocount := 1, ilen := 2 }
    (host_script [⟨-110, []⟩, ⟨-5, []⟩]) (by decide) (by decide)

/-- The status switch at loop index 0 never gives `-ENXIO`. -/
theorem decode_status_zero_ne (ib : List Nat) (actual : Nat) (ha : 0 < actual) :
    decode_status 0 ib actual ≠ - ENXIO := by
  simp only [decode_status, show ¬ ((0 : Nat) = 1) by decide, if_false]
  split_ifs
  · simp [ EIO, ENXIO]
  · simp [ETIMEDOUT, ENXIO]
  · simp only [ ENXIO]
    omega
  · simp [ EIO, ENXIO]

/-- The result of the response loop body at index 0 is `-ENXIO` only when the
result so far or the read call itself is `-ENXIO`. -/
theorem read_body_enxio (ret : Int) (dev : i2c_ch341_u2c) (h : Host)
    (hx : (transfer_read_body 0 ret dev h).1 = - ENXIO) :
    ret = - ENXIO ∨ next_ret h = - ENXIO := by
  simp only [transfer_read_body, usb_bulk_msg_in] at hx
  by_cases h1 : ret < 0
  · left
    simpa [h1] using hx
  · by_cases h2 : (h.reply h.log.length).ret = 0 ∧
        ((h.reply h.log.length).frame.take DIOLAN_INBUF_LEN).length > 0
    · rw [if_neg h1, if_pos h2] at hx
      exact absurd hx (decode_status_zero_ne _ _ h2.2)
    · right
      rw [if_neg h1, if_neg h2] at hx
      exact hx

/-- C20: the status decoding of `ch341_usb_transfer` runs at loop index 0 only.
A response frame (at most 256 bytes) ending in the not-acknowledged status
0x07, with the bulk write and read succeeding, gives `-EIO`; and the result is
`-ENXIO` only if the bulk write or the bulk read itself returned `-ENXIO`. -/
theorem C20_transfer_nack_is_eio (dev : i2c_ch341_u2c) (h : Host) :
    (∀ pre : List Nat, dev.olen ≠ 0 → dev.ocount ≠ 0 → dev.ilen ≠ 0 →
      next_ret h = 0 → second_ret h = 0 → second_frame h = pre ++ [RESP_NACK] →
      (pre ++ [RESP_NACK]).length ≤ 256 → (ch341_usb_transfer dev h).1 = - EIO) ∧
    ((ch341_usb_transfer dev h).1 = - ENXIO →
      next_ret h = - ENXIO ∨ (dev.ilen ≠ 0 ∧ second_ret h = - ENXIO)) := by
  constructor
  · intro pre ho hc hi hw hr hf hlen
    rw [transfer_expecting dev h ho hc hi]
    have hb := read_body_status 0 (next_ret h) { dev with ocount := 1 }
      (host_written dev h)
      pre RESP_NACK (by omega) (by simpa [next_ret, second_ret, host_written] using hr)
      (by simpa [second_frame, host_written] using hf) hlen
    simp only [hb]
    simp
  · intro hx
    by_cases hg : dev.olen = 0 ∨ dev.ocount = 0
    · simp [ch341_usb_transfer, hg, EINVAL, ENXIO] at hx
    · have ho : dev.olen ≠ 0 := fun hz => hg (Or.inl hz)
      have hc : dev.ocount ≠ 0 := fun hz => hg (Or.inr hz)
      by_cases hi : dev.ilen = 0
      · left
        simpa [ch341_usb_transfer, ho, hc, hi, usb_bulk_msg_out, next_ret] using hx
      · rw [transfer_expecting dev h ho hc hi] at hx
        rcases read_body_enxio _ _ _ hx with h1 | h2
        · exact Or.inl h1
        · right
          refine ⟨hi, ?_⟩
          simpa [next_ret, second_ret] using h2

theorem C20_transfer_nack_is_eio_witness :
    (ch341_usb_transfer { dev_zero with olen := 7, ocount := 1, ilen := 1 }
      (host_ok [0x42, 0x07])).1 = - EIO :=
  (C20_transfer_nack_is_eio { dev_zero with olen := 7, ocount := 1, ilen := 1 }
    (host_ok [0x42, 0x07])).1 [0x42] (by decide) (by decide) (by decide) rfl rfl rfl
    (by decide)

/-! ## Initialisation: `ch341_init` and `ch341_set_speed` -/

/-- C16: `ch341_init` selects the speed grade 3 for a frequency of at least
750000 Hz, 2 from 400000 Hz, 1 from 200000 Hz or for 0, and 0 otherwise, and
runs `ch341_set_speed` with that grade: its result is the result of that call,
followed by `ch341_flush_input` when the call did not fail. -/
theorem C16_init_speed_grade (frequency : Nat) (dev : i2c_ch341_u2c) (h : Host) :
    (750000 ≤ frequency → init_speed frequency = 3) ∧
    (400000 ≤ frequency → frequency < 750000 → init_speed frequency = 2) ∧
    ((200000 ≤ frequency ∧ frequency < 400000) ∨ frequency = 0 → init_speed frequency = 1) ∧
    (0 < frequency → frequency < 200000 → init_speed frequency = 0) ∧
    ch341_init frequency dev h =
      if (ch341_set_speed dev h (init_speed frequency)).1 < 0 then
        ch341_set_speed dev h (init_speed frequency)
      else
        ((ch341_set_speed dev h (init_speed frequency)).1,
          ch341_flush_input (ch341_set_speed dev h (init_speed frequency)).2.1
            (ch341_set_speed dev h (init_speed frequency)).2.2) := by
  refine ⟨?_, ?_, ?_, ?_, ?_⟩
  · intro h1
    simp [init_speed, h1]
  · intro h1 h2
    have h3 : ¬ 750000 ≤ frequency := by omega
    simp [init_speed, h1, h3]
  · intro h1
    have h3 : ¬ 750000 ≤ frequency := by omega
    have h4 : ¬ 400000 ≤ frequency := by omega
    have h5 : 200000 ≤ frequency ∨ frequency = 0 := by omega
    simp only [init_speed, ge_iff_le, h3, h4, h5, if_false, if_true]
  · intro h1 h2
    have h3 : ¬ 750000 ≤ frequency := by omega
    have h4 : ¬ 400000 ≤ frequency := by omega
    have h5 : ¬ (200000 ≤ frequency ∨ frequency = 0) := by omega
    simp only [init_speed, ge_iff_le, h3, h4, h5, if_false]
  · rcases hx : ch341_set_speed dev h (init_speed frequency) with ⟨ret, dev1, h1⟩
    simp only [ch341_init, hx]

theorem C16_init_speed_grade_witness : init_speed 100000 = 0 :=
  (C16_init_speed_grade 100000 dev_zero (host_ok [])).2.2.2.1 (by decide) (by decide)

/-- C17 fails: for each speed grade 0..3 the command that `ch341_set_speed`
hands to the bulk OUT write is `[0xAA, 0x00, 0x00]`, because the sub-opcode is
computed as `0x60 & (speed & 0x03)`; it is not `[0xAA, 0x60 | g, 0x00]` and does
not differ between grades. -/
theorem C17_set_speed_same_bytes :
    (ch341_set_speed dev_zero (host_ok []) 0).2.2.log = [UsbCall.bulkOut [0xAA, 0x00, 0x00]] ∧
    (ch341_set_speed dev_zero (host_ok []) 1).2.2.log = [UsbCall.bulkOut [0xAA, 0x00, 0x00]] ∧
    (ch341_set_speed dev_zero (host_ok []) 2).2.2.log = [UsbCall.bulkOut [0xAA, 0x00, 0x00]] ∧
    (ch341_set_speed dev_zero (host_ok []) 3).2.2.log = [UsbCall.bulkOut [0xAA, 0x00, 0x00]] ∧
    mCH341A_CMD_I2C_STM_SET ||| 1 = 0x61 := by
  decide

/-! ## Enqueueing one command: `ch341_usb_cmd_msg` -/

theorem read_body_log (i : Nat) (ret : Int) (dev : i2c_ch341_u2c) (h : Host) :
    (transfer_read_body i ret dev h).2.2.log = h.log ++ [UsbCall.bulkIn] ∧
      (transfer_read_body i ret dev h).2.2.reply = h.reply ∧
      (transfer_read_body i ret dev h).2.2.stack_byte = h.stack_byte := by
  simp only [transfer_read_body, usb_bulk_msg_in]
  split_ifs <;> simp

theorem read_body_flushed (i : Nat) (ret : Int) (dev : i2c_ch341_u2c) (h : Host) :
    (transfer_read_body i ret dev h).2.2.flushed = h.flushed := by
  simp only [transfer_read_body, usb_bulk_msg_in]
  split_ifs <;> rfl

/-- The result of the response loop body, case by case: an earlier error is
kept; otherwise a read that did not return 0 gives its return value, a read
that delivered nothing gives 0, and a frame `pre ++ [s]` is decided by its
status byte `s`. -/
theorem read_body_cases (i : Nat) (ret : Int) (dev : i2c_ch341_u2c) (h : Host) :
    (ret < 0 → (transfer_read_body i ret dev h).1 = ret) ∧
    (0 ≤ ret → next_ret h ≠ 0 → (transfer_read_body i ret dev h).1 = next_ret h) ∧
    (0 ≤ ret → next_ret h = 0 → (h.reply h.log.length).frame.take DIOLAN_INBUF_LEN = [] →
      (transfer_read_body i ret dev h).1 = 0) ∧
    (0 ≤ ret → next_ret h = 0 → ∀ (pre : List Nat) (s : Nat),
      (h.reply h.log.length).frame.take DIOLAN_INBUF_LEN = pre ++ [s] →
      (transfer_read_body i ret dev h).1 =
        if s = RESP_NACK then (if i = 1 then - ENXIO else - EIO)
        else if s = RESP_TIMEOUT then - ETIMEDOUT
        else if s = RESP_OK then (pre.length : Int)
        else - EIO) := by
  refine ⟨?_, ?_, ?_, ?_⟩
  · intro h1
    simp [transfer_read_body, usb_bulk_msg_in, h1]
  · intro h1 h2
    have hn : ¬ ret < 0 := by omega
    simp only [next_ret] at h2
    simp [transfer_read_body, usb_bulk_msg_in, hn, h2, next_ret]
  · intro h1 h2 h3
    have hn : ¬ ret < 0 := by omega
    simp only [next_ret] at h2
    simp [transfer_read_body, usb_bulk_msg_in, hn, h2, h3]
  · intro h1 h2 pre s h3
    have hn : ¬ ret < 0 := by omega
    have hpos : (pre ++ [s]).length > 0 := by simp
    simp only [next_ret] at h2
    simp only [transfer_read_body, usb_bulk_msg_in, h3, hn, h2, hpos, decode_status,
      status_byte_of_frame, if_false, and_self, if_true]
    simp

/-- The bulk calls made by `ch341_usb_cmd_msg` with `flush` set: one OUT write
of the first `len` bytes of the buffer, then one IN read when a response is
expected (`ilen` not zero). -/
theorem cmd_msg_log (dev : i2c_ch341_u2c) (h : Host) (msg : List Nat) (len : Nat)
    (hc : dev.ocount + 1 ≠ 0) (hl : len ≠ 0) :
    (ch341_usb_cmd_msg dev h msg len true).2.2.log =
      h.log ++ UsbCall.bulkOut ((memcpy dev.obuffer msg len).take len) ::
        (if dev.ilen ≠ 0 then [UsbCall.bulkIn] else []) := by
  have hl1 : (len : Int) ≠ 0 := by exact_mod_cast hl
  by_cases hi : dev.ilen = 0
  · simp [ch341_usb_cmd_msg, ch341_write_cmd, ch341_usb_transfer, hc, hl, hi,
      usb_bulk_msg_out]
  · simp only [ch341_usb_cmd_msg, ch341_write_cmd, true_or, if_true]
    rw [transfer_expecting (i2c_ch341_u2c.mk _ _ _ _ _) h hl1 hc hi]
    simp [(read_body_log _ _ _ _).1, hi]

/-- The record of the flush made by `ch341_usb_cmd_msg` with `flush` set: the
OUT write is given the length `len`, with the command count one more than
before the call. -/
theorem cmd_msg_flushed (dev : i2c_ch341_u2c) (h : Host) (msg : List Nat) (len : Nat)
    (hc : dev.ocount + 1 ≠ 0) (hl : len ≠ 0) :
    (ch341_usb_cmd_msg dev h msg len true).2.2.flushed =
      h.flushed ++ [((len : Int), dev.ocount + 1)] := by
  have hl1 : (len : Int) ≠ 0 := by exact_mod_cast hl
  by_cases hi : dev.ilen = 0
  · simp [ch341_usb_cmd_msg, ch341_write_cmd, ch341_usb_transfer, hc, hl, hi,
      usb_bulk_msg_out]
  · simp only [ch341_usb_cmd_msg, ch341_write_cmd, true_or, if_true]
    rw [transfer_expecting (i2c_ch341_u2c.mk _ _ _ _ _) h hl1 hc hi]
    simp [read_body_flushed]

/-- The session is cleared by `ch341_usb_cmd_msg` with `flush` set. -/
theorem cmd_msg_cleared (dev : i2c_ch341_u2c) (h : Host) (msg : List Nat) (len : Nat)
    (hc : dev.ocount + 1 ≠ 0) (hl : len ≠ 0) :
    (ch341_usb_cmd_msg dev h msg len true).2.1.olen = 0 ∧
      (ch341_usb_cmd_msg dev h msg len true).2.1.ocount = 0 ∧
      (ch341_usb_cmd_msg dev h msg len true).2.1.ilen = 0 := by
  have hl1 : (len : Int) ≠ 0 := by exact_mod_cast hl
  simp [ch341_usb_cmd_msg, ch341_write_cmd, ch341_usb_transfer, hc, hl]

/-- Without an expected response the result of the flush is the result of the
OUT write. -/
theorem cmd_msg_ret_of_no_response (dev : i2c_ch341_u2c) (h : Host) (msg : List Nat)
    (len : Nat) (hc : dev.ocount + 1 ≠ 0) (hl : len ≠ 0) (hi : dev.ilen = 0) :
    (ch341_usb_cmd_msg dev h msg len true).1 = next_ret h := by
  simp [ch341_usb_cmd_msg, ch341_write_cmd, ch341_usb_transfer, hc, hl, hi,
    usb_bulk_msg_out, next_ret]

/-- The result of a flushed command that expects a response is the result of
the response loop body at index 0, run after the OUT write. -/
theorem cmd_msg_ret_of_response (dev : i2c_ch341_u2c) (h : Host) (msg : List Nat)
    (len : Nat) (hc : dev.ocount + 1 ≠ 0) (hl : len ≠ 0) (hi : dev.ilen ≠ 0) :
    (ch341_usb_cmd_msg dev h msg len true).1 =
      (transfer_read_body 0 (next_ret h)
        { obuffer := memcpy dev.obuffer msg len, ibuffer := dev.ibuffer, olen := (len : Int),
          ocount := 1, ilen := dev.ilen }
        (host_written
          { obuffer := memcpy dev.obuffer msg len, ibuffer := dev.ibuffer, olen := (len : Int),
            ocount := dev.ocount + 1, ilen := dev.ilen } h)).1 := by
  have hl1 : (len : Int) ≠ 0 := by exact_mod_cast hl
  simp only [ch341_usb_cmd_msg, ch341_write_cmd, true_or, if_true]
  rw [transfer_expecting (i2c_ch341_u2c.mk _ _ _ _ _) h hl1 hc hi]

/-- The result of a flushed command that expects a response, case by case, in
terms of what the transport answers to the OUT write and to the IN read. -/
theorem cmd_msg_cases (dev : i2c_ch341_u2c) (h : Host) (msg : List Nat) (len : Nat)
    (hc : dev.ocount + 1 ≠ 0) (hl : len ≠ 0) (hi : dev.ilen ≠ 0) :
    (next_ret h < 0 → (ch341_usb_cmd_msg dev h msg len true).1 = next_ret h) ∧
    (0 ≤ next_ret h → second_ret h ≠ 0 →
      (ch341_usb_cmd_msg dev h msg len true).1 = second_ret h) ∧
    (0 ≤ next_ret h → second_ret h = 0 → (second_frame h).take DIOLAN_INBUF_LEN = [] →
      (ch341_usb_cmd_msg dev h msg len true).1 = 0) ∧
    (0 ≤ next_ret h → second_ret h = 0 → ∀ (pre : List Nat) (s : Nat),
      (second_frame h).take DIOLAN_INBUF_LEN = pre ++ [s] →
      (ch341_usb_cmd_msg dev h msg len true).1 =
        if s = RESP_NACK then - EIO
        else if s = RESP_TIMEOUT then - ETIMEDOUT
        else if s = RESP_OK then (pre.length : Int)
        else - EIO) := by
  rw [cmd_msg_ret_of_response dev h msg len hc hl hi]
  obtain ⟨c1, c2, c3, c4⟩ := read_body_cases 0 (next_ret h)
    { obuffer := memcpy dev.obuffer msg len, ibuffer := dev.ibuffer, olen := (len : Int),
      ocount := 1, ilen := dev.ilen }
    (host_written
      { obuffer := memcpy dev.obuffer msg len, ibuffer := dev.ibuffer, olen := (len : Int),
        ocount := dev.ocount + 1, ilen := dev.ilen } h)
  have hn : ∀ d : i2c_ch341_u2c, next_ret (host_written d h) = second_ret h := by
    intro d; simp [next_ret, second_ret]
  have hfr : ∀ d : i2c_ch341_u2c,
      ((host_written d h).reply (host_written d h).log.length).frame = second_frame h := by
    intro d; simp [second_frame]
  rw [hn] at c2 c3 c4
  rw [hfr] at c3 c4
  refine ⟨c1, c2, c3, ?_⟩
  intro h1 h2 pre s h3
  rw [c4 h1 h2 pre s h3]
  simp

/-- A failed OUT write decides the result of `ch341_usb_cmd_msg`. -/
theorem cmd_msg_ret_of_write_error (dev : i2c_ch341_u2c) (h : Host) (msg : List Nat)
    (len : Nat) (hc : dev.ocount + 1 ≠ 0) (hl : len ≠ 0) (hw : next_ret h < 0) :
    (ch341_usb_cmd_msg dev h msg len true).1 = next_ret h := by
  by_cases hi : dev.ilen = 0
  · exact cmd_msg_ret_of_no_response dev h msg len hc hl hi
  · exact (cmd_msg_cases dev h msg len hc hl hi).1 hw

theorem memcpy_take (dst src : List Nat) (n : Nat) (hn : n ≤ src.length) :
    (memcpy dst src n).take n = src.take n := by
  unfold memcpy
  exact List.take_left' (by simp [hn])

theorem memcpy_take_eq (dst src : List Nat) (n : Nat) (l : List Nat) (h : src.take n = l)
    (hl : l.length = n) : (memcpy dst src n).take n = l := by
  unfold memcpy
  rw [h]
  exact List.take_left' hl

/-! ## Start, stop and the per-message commands -/

/-- The start command from a session that expects no response: one OUT write of
`[0xAA, 0x74, 0x00]`, whose result is returned, and a cleared session. -/
theorem start_facts (dev : i2c_ch341_u2c) (h : Host) (hc : dev.ocount + 1 ≠ 0)
    (hi : dev.ilen = 0) :
    (ch341_i2c_start dev h).1 = next_ret h ∧
      (ch341_i2c_start dev h).2.2.log = h.log ++ [UsbCall.bulkOut [0xAA, 0x74, 0x00]] ∧
      (ch341_i2c_start dev h).2.1.ocount = 0 ∧ (ch341_i2c_start dev h).2.1.ilen = 0 := by
  unfold ch341_i2c_start
  refine ⟨cmd_msg_ret_of_no_response _ _ _ _ hc (by decide) hi, ?_,
    (cmd_msg_cleared _ _ _ _ hc (by decide)).2.1, (cmd_msg_cleared _ _ _ _ hc (by decide)).2.2⟩
  rw [cmd_msg_log _ _ _ _ hc (by decide), memcpy_take _ _ _ (by simp)]
  simp [hi, mCH341A_CMD_I2C_STREAM, mCH341A_CMD_I2C_STM_STA, mCH341A_CMD_I2C_STM_END]

/-- The stop command from a session that expects no response: one OUT write of
`[0xAA, 0x75, 0x00]`, whose result is returned, and a cleared session. -/
theorem stop_facts (dev : i2c_ch341_u2c) (h : Host) (hc : dev.ocount + 1 ≠ 0)
    (hi : dev.ilen = 0) :
    (ch341_i2c_stop dev h).1 = next_ret h ∧
      (ch341_i2c_stop dev h).2.2.log = h.log ++ [UsbCall.bulkOut [0xAA, 0x75, 0x00]] ∧
      (ch341_i2c_stop dev h).2.1.ocount = 0 ∧ (ch341_i2c_stop dev h).2.1.ilen = 0 := by
  unfold ch341_i2c_stop
  refine ⟨cmd_msg_ret_of_no_response _ _ _ _ hc (by decide) hi, ?_,
    (cmd_msg_cleared _ _ _ _ hc (by decide)).2.1, (cmd_msg_cleared _ _ _ _ hc (by decide)).2.2⟩
  rw [cmd_msg_log _ _ _ _ hc (by decide), memcpy_take _ _ _ (by simp)]
  simp [hi, mCH341A_CMD_I2C_STREAM, mCH341A_CMD_I2C_STM_STO, mCH341A_CMD_I2C_STM_END]

theorem start_olen (dev : i2c_ch341_u2c) (h : Host) (hc : dev.ocount + 1 ≠ 0) :
    (ch341_i2c_start dev h).2.1.olen = 0 :=
  (cmd_msg_cleared _ _ _ _ hc (by decide)).1

theorem stop_olen (dev : i2c_ch341_u2c) (h : Host) (hc : dev.ocount + 1 ≠ 0) :
    (ch341_i2c_stop dev h).2.1.olen = 0 :=
  (cmd_msg_cleared _ _ _ _ hc (by decide)).1

/-- The flush of the start command is made with `olen = 3`. -/
theorem start_flushed (dev : i2c_ch341_u2c) (h : Host) (hc : dev.ocount + 1 ≠ 0) :
    (ch341_i2c_start dev h).2.2.flushed = h.flushed ++ [(3, dev.ocount + 1)] :=
  cmd_msg_flushed _ _ _ _ hc (by decide)

/-- The flush of the stop command is made with `olen = 3`. -/
theorem stop_flushed (dev : i2c_ch341_u2c) (h : Host) (hc : dev.ocount + 1 ≠ 0) :
    (ch341_i2c_stop dev h).2.2.flushed = h.flushed ++ [(3, dev.ocount + 1)] :=
  cmd_msg_flushed _ _ _ _ hc (by decide)

theorem bulk_out_data_append (l1 l2 : List UsbCall) :
    bulk_out_data (l1 ++ l2) = bulk_out_data l1 ++ bulk_out_data l2 := by
  induction l1 with
  | nil => rfl
  | cons c l ih =>
    cases c with
    | bulkOut d => simp [bulk_out_data, ih]
    | bulkIn => simp [bulk_out_data, ih]

theorem bulk_in_count_step (l : List UsbCall) (d : List Nat) :
    bulk_in_count (l ++ [UsbCall.bulkOut d, UsbCall.bulkIn]) = bulk_in_count l + 1 := by
  simp [bulk_in_count, List.count_append, List.count_cons]

theorem bulk_in_count_out (l : List UsbCall) (d : List Nat) :
    bulk_in_count (l ++ [UsbCall.bulkOut d]) = bulk_in_count l := by
  simp [bulk_in_count, List.count_append, List.count_cons]

/-- A start command that succeeded was enqueued: the command count was not -1. -/
theorem ocount_of_start_ok (dev : i2c_ch341_u2c) (h : Host) (hs : 0 ≤ start_ret dev h) :
    dev.ocount + 1 ≠ 0 := by
  intro hz
  have hbad : start_ret dev h = - EINVAL := by
    simp [start_ret, ch341_i2c_start, ch341_usb_cmd_msg, ch341_write_cmd,
      ch341_usb_transfer, hz]
  rw [hbad] at hs
  simp [EINVAL] at hs

/-- The OUT write of the start command, from any session in which it is
enqueued. -/
theorem start_out (dev : i2c_ch341_u2c) (h : Host) (hc : dev.ocount + 1 ≠ 0) :
    bulk_out_data (ch341_i2c_start dev h).2.2.log =
        bulk_out_data h.log ++ [[0xAA, 0x74, 0x00]] ∧
      (ch341_i2c_start dev h).2.1.ocount = 0 ∧ (ch341_i2c_start dev h).2.1.ilen = 0 := by
  unfold ch341_i2c_start
  refine ⟨?_, (cmd_msg_cleared _ _ _ _ hc (by decide)).2.1,
    (cmd_msg_cleared _ _ _ _ hc (by decide)).2.2⟩
  rw [cmd_msg_log _ _ _ _ hc (by decide), memcpy_take _ _ _ (by simp), bulk_out_data_append]
  split_ifs <;>
    simp [bulk_out_data, mCH341A_CMD_I2C_STREAM, mCH341A_CMD_I2C_STM_STA,
      mCH341A_CMD_I2C_STM_END]

/-- The read command of a message: the seven bytes handed to the OUT write, and
the IN read that follows. -/
theorem read_addr_log (dev : i2c_ch341_u2c) (h : Host) (addr datalen : Nat) (data : List Nat)
    (hc : dev.ocount + 1 ≠ 0) :
    (ch341_usb_cmd_read_addr dev h addr data datalen 1).2.2.log =
      h.log ++ [UsbCall.bulkOut [0xAA, 0x74, 0x81, addr ||| 1, 0xC1, 0x75, 0x00],
        UsbCall.bulkIn] := by
  unfold ch341_usb_cmd_read_addr
  simp only []
  rw [cmd_msg_log { dev with ilen := ((1 : Nat) : Int) } h _ _ hc (by decide),
    memcpy_take _ _ _ (by simp)]
  simp [mCH341A_CMD_I2C_STREAM, mCH341A_CMD_I2C_STM_STA, mCH341A_CMD_I2C_STM_END,
    mCH341A_CMD_I2C_STM_STO, mCH341A_CMD_I2C_STM_OUT, mCH341A_CMD_I2C_STM_IN]

theorem read_addr_cleared (dev : i2c_ch341_u2c) (h : Host) (addr datalen ilen : Nat)
    (data : List Nat) (hc : dev.ocount + 1 ≠ 0) :
    (ch341_usb_cmd_read_addr dev h addr data datalen ilen).2.1.olen = 0 ∧
      (ch341_usb_cmd_read_addr dev h addr data datalen ilen).2.1.ocount = 0 ∧
      (ch341_usb_cmd_read_addr dev h addr data datalen ilen).2.1.ilen = 0 := by
  unfold ch341_usb_cmd_read_addr
  exact cmd_msg_cleared { dev with ilen := (ilen : Int) } h _ _ hc (by decide)

theorem read_addr_flushed (dev : i2c_ch341_u2c) (h : Host) (addr datalen ilen : Nat)
    (data : List Nat) (hc : dev.ocount + 1 ≠ 0) :
    (ch341_usb_cmd_read_addr dev h addr data datalen ilen).2.2.flushed =
      h.flushed ++ [(7, dev.ocount + 1)] := by
  unfold ch341_usb_cmd_read_addr
  exact cmd_msg_flushed { dev with ilen := (ilen : Int) } h _ _ hc (by decide)

/-- The write command of more than 250 bytes has no result: it stores past the
end of its local array. -/
theorem write_addr_none (dev : i2c_ch341_u2c) (h : Host) (addr datalen : Nat)
    (data : List Nat) (hb : 250 < datalen) :
    ch341_usb_cmd_write_addr dev h addr data datalen = none := by
  have hgt : 4 + 2 + datalen > 256 := by omega
  simp [ch341_usb_cmd_write_addr, hgt]

/-- The write command of at most 250 bytes hands its local array, which holds
at least four bytes, to `ch341_usb_cmd_msg` with the length 7 and
`ilen = datalen + 1`. -/
theorem write_addr_some (dev : i2c_ch341_u2c) (h : Host) (addr datalen : Nat)
    (data : List Nat) (hb : datalen ≤ 250) :
    ∃ msg3 : List Nat, 4 ≤ msg3.length ∧
      ch341_usb_cmd_write_addr dev h addr data datalen =
        some (ch341_usb_cmd_msg { dev with ilen := (datalen : Int) + 1 } h msg3 7 true) := by
  have hgt : ¬ 4 + 2 + datalen > 256 := by omega
  simp only [ch341_usb_cmd_write_addr, hgt, if_false]
  refine ⟨_, ?_, rfl⟩
  simp only [memcpy, List.length_set, List.length_take, List.length_append,
    List.length_cons, List.length_nil, List.length_replicate, List.length_drop]
  omega

/-- A write command that has a result is one of at most 250 bytes. -/
theorem write_addr_bound (dev : i2c_ch341_u2c) (h : Host) (addr datalen : Nat)
    (data : List Nat) (r : Int × i2c_ch341_u2c × Host)
    (hx : ch341_usb_cmd_write_addr dev h addr data datalen = some r) : datalen ≤ 250 := by
  by_contra hb
  rw [write_addr_none dev h addr datalen data (by omega)] at hx
  exact Option.noConfusion hx

/-- The 256-byte local array of `ch341_usb_cmd_write_addr` for a one-byte
payload starts with the seven bytes of the complete command. -/
theorem write_msg_one (addr d : Nat) :
    (((([mCH341A_CMD_I2C_STREAM, mCH341A_CMD_I2C_STM_STA, mCH341A_CMD_I2C_STM_OUT ||| 1,
        addr &&& 0xfe] ++ List.replicate 252 0).take 4 ++
      memcpy (([mCH341A_CMD_I2C_STREAM, mCH341A_CMD_I2C_STM_STA, mCH341A_CMD_I2C_STM_OUT ||| 1,
        addr &&& 0xfe] ++ List.replicate 252 0).drop 4) [d] 1).set (4 + 2 + 1 - 2)
          mCH341A_CMD_I2C_STM_STO).set (4 + 2 + 1 - 1) mCH341A_CMD_I2C_STM_END).take 7 =
      [0xAA, 0x74, 0x81, addr &&& 0xfe, d, 0x75, 0x00] := by
  rfl

/-- The write command of a one-byte message hands seven bytes to the OUT
write. -/
theorem write_addr_one_log (dev : i2c_ch341_u2c) (h : Host) (addr d : Nat)
    (hc : dev.ocount + 1 ≠ 0) :
    ∃ r, ch341_usb_cmd_write_addr dev h addr [d] 1 = some r ∧
      r.2.2.log = h.log ++ [UsbCall.bulkOut [0xAA, 0x74, 0x81, addr &&& 0xfe, d, 0x75, 0x00],
        UsbCall.bulkIn] := by
  have hgt : ¬ 4 + 2 + 1 > 256 := by decide
  simp only [ch341_usb_cmd_write_addr, hgt, if_false]
  refine ⟨_, rfl, ?_⟩
  rw [cmd_msg_log { dev with ilen := ((1 : Nat) : Int) + 1 } h _ _ hc (by decide)]
  have hne : (((1 : Nat) : Int) + 1) ≠ 0 := by omega
  rw [if_pos (show _ from hne)]
  rw [memcpy_take_eq _ _ _ _ (write_msg_one addr d) rfl]

/-- The step of a write message is its write command. -/
theorem xfer_msg_write (i : Nat) (m : i2c_msg) (dev : i2c_ch341_u2c) (h : Host)
    (hrd : ¬ (m.flags &&& I2C_M_RD ≠ 0)) :
    xfer_msg i m dev h =
      match ch341_usb_cmd_write_addr dev h ((m.addr <<< 1) % 256) m.buf (m.len % 256) with
      | none => none
      | some (ret, dev1, h1) => some (ret, m, dev1, h1) := by
  unfold xfer_msg
  rw [if_neg hrd]

/-- A message step that has a result made one OUT write of at least 4 bytes
followed by one IN read, whatever the direction of the message and whatever
the transport answered; it was flushed with `olen = 7` and left the session
cleared. -/
theorem xfer_msg_facts (i : Nat) (m : i2c_msg) (dev : i2c_ch341_u2c) (h : Host)
    (r : Int × i2c_msg × i2c_ch341_u2c × Host) (hc : dev.ocount + 1 ≠ 0)
    (hx : xfer_msg i m dev h = some r) :
    (∃ d, 4 ≤ d.length ∧ r.2.2.2.log = h.log ++ [UsbCall.bulkOut d, UsbCall.bulkIn]) ∧
      r.2.2.1.olen = 0 ∧ r.2.2.1.ocount = 0 ∧ r.2.2.1.ilen = 0 ∧
      r.2.2.2.flushed = h.flushed ++ [(7, dev.ocount + 1)] := by
  unfold xfer_msg at hx
  by_cases hrd : m.flags &&& I2C_M_RD ≠ 0
  · rw [if_pos hrd] at hx
    have hlog := read_addr_log dev h ((m.addr <<< 1) % 256) (m.len % 256) m.buf hc
    have hcl := read_addr_cleared dev h ((m.addr <<< 1) % 256) (m.len % 256) 1 m.buf hc
    have hfl := read_addr_flushed dev h ((m.addr <<< 1) % 256) (m.len % 256) 1 m.buf hc
    rcases hy : ch341_usb_cmd_read_addr dev h ((m.addr <<< 1) % 256) m.buf (m.len % 256) 1 with
      ⟨ret, dev1, h1⟩
    rw [hy] at hx hlog hcl hfl
    dsimp only at hx hlog hcl hfl
    have hr : r.2.2 = (dev1, h1) := by
      split_ifs at hx <;> (cases hx; rfl)
    rw [hr]
    exact ⟨⟨_, by simp, hlog⟩, hcl.1, hcl.2.1, hcl.2.2, hfl⟩
  · rw [if_neg hrd] at hx
    rcases hy : ch341_usb_cmd_write_addr dev h ((m.addr <<< 1) % 256) m.buf (m.len % 256) with
      _ | ⟨ret, dev1, h1⟩
    · rw [hy] at hx
      exact Option.noConfusion hx
    · rw [hy] at hx
      dsimp only at hx
      have hr : r.2.2 = (dev1, h1) := by cases hx; rfl
      obtain ⟨msg3, h4, hw⟩ := write_addr_some dev h ((m.addr <<< 1) % 256) (m.len % 256) m.buf
        (write_addr_bound _ _ _ _ _ _ hy)
      rw [hy] at hw
      have hw1 := Option.some.inj hw
      have hne : (((m.len % 256 : Nat) : Int) + 1) ≠ 0 := by omega
      have hlog := cmd_msg_log { dev with ilen := ((m.len % 256 : Nat) : Int) + 1 } h msg3 7 hc
        (by decide)
      have hcl := cmd_msg_cleared { dev with ilen := ((m.len % 256 : Nat) : Int) + 1 } h msg3 7
        hc (by decide)
      have hfl := cmd_msg_flushed { dev with ilen := ((m.len % 256 : Nat) : Int) + 1 } h msg3 7
        hc (by decide)
      rw [← hw1, if_pos (show _ from hne)] at hlog
      rw [← hw1] at hcl hfl
      rw [hr]
      refine ⟨⟨_, ?_, hlog⟩, hcl.1, hcl.2.1, hcl.2.2, hfl⟩
      simp only [memcpy, List.length_take, List.length_append, List.length_drop]
      omega

/-- The step of a message inside the bounds of the local array has a result. -/
theorem xfer_msg_defined (i : Nat) (m : i2c_msg) (dev : i2c_ch341_u2c) (h : Host)
    (hb : msg_in_bounds m) : ∃ r, xfer_msg i m dev h = some r := by
  unfold xfer_msg
  by_cases hrd : m.flags &&& I2C_M_RD ≠ 0
  · rw [if_pos hrd]
    rcases hy : ch341_usb_cmd_read_addr dev h ((m.addr <<< 1) % 256) m.buf (m.len % 256) 1 with
      ⟨ret, dev1, h1⟩
    dsimp only
    split_ifs
    · exact ⟨_, rfl⟩
    · exact ⟨_, rfl⟩
  · rw [if_neg hrd]
    have hlen : m.len % 256 ≤ 250 := by
      rcases hb with hb | hb
      · exact absurd hb hrd
      · exact hb
    obtain ⟨msg3, -, hw⟩ := write_addr_some dev h ((m.addr <<< 1) % 256) (m.len % 256) m.buf hlen
    rw [hw]
    exact ⟨_, rfl⟩

/-- The step of a read message: it has a result, and the seven bytes handed to
the OUT write are those of the read command. -/
theorem xfer_msg_read_log (i : Nat) (m : i2c_msg) (dev : i2c_ch341_u2c) (h : Host)
    (hrd : m.flags &&& I2C_M_RD ≠ 0) (hc : dev.ocount + 1 ≠ 0) :
    ∃ r, xfer_msg i m dev h = some r ∧
      r.2.2.2.log = h.log ++ [UsbCall.bulkOut
        [0xAA, 0x74, 0x81, ((m.addr <<< 1) % 256) ||| 1, 0xC1, 0x75, 0x00], UsbCall.bulkIn] := by
  have hlog := read_addr_log dev h ((m.addr <<< 1) % 256) (m.len % 256) m.buf hc
  unfold xfer_msg
  rw [if_pos hrd]
  rcases hy : ch341_usb_cmd_read_addr dev h ((m.addr <<< 1) % 256) m.buf (m.len % 256) 1 with
    ⟨ret, dev1, h1⟩
  rw [hy] at hlog
  dsimp only at hlog ⊢
  split_ifs
  · exact ⟨_, rfl, hlog⟩
  · exact ⟨_, rfl, hlog⟩

/-- The step of a one-byte write message: it has a result, and seven bytes are
handed to the OUT write. -/
theorem xfer_msg_write_one_log (i : Nat) (a flags d : Nat) (dev : i2c_ch341_u2c) (h : Host)
    (hwr : flags &&& I2C_M_RD = 0) (hc : dev.ocount + 1 ≠ 0) :
    ∃ r, xfer_msg i { addr := a, flags := flags, len := 1, buf := [d] } dev h = some r ∧
      r.2.2.2.log = h.log ++ [UsbCall.bulkOut
        [0xAA, 0x74, 0x81, ((a <<< 1) % 256) &&& 0xfe, d, 0x75, 0x00], UsbCall.bulkIn] := by
  obtain ⟨w, hw, hlog⟩ := write_addr_one_log dev h ((a <<< 1) % 256) d hc
  have hone : 1 % 256 = 1 := rfl
  have hnrd : ¬ (({ addr := a, flags := flags, len := 1, buf := [d] } : i2c_msg).flags &&&
      I2C_M_RD ≠ 0) := not_not.mpr hwr
  rw [xfer_msg_write _ _ _ _ hnrd]
  dsimp only
  rw [hone, hw]
  exact ⟨_, rfl, hlog⟩

/-! ## The message loop -/

/-- What `k` message steps from a cleared session leave behind, when each of
them has a result: a cleared session, OUT writes of at least 4 bytes, flushes
with `olen = 7` and `ocount = 1`, and one IN read per step. -/
theorem steps_state_facts (msgs : List i2c_msg) :
    ∀ (k i : Nat) (s st : i2c_ch341_u2c × Host), steps_state k i msgs s = some st →
      s.1.olen = 0 → s.1.ocount = 0 → s.1.ilen = 0 →
      (st.1.olen = 0 ∧ st.1.ocount = 0 ∧ st.1.ilen = 0) ∧
      (∃ ds, bulk_out_data st.2.log = bulk_out_data s.2.log ++ ds ∧
        ∀ d, d ∈ ds → 4 ≤ d.length) ∧
      (∃ fl, st.2.flushed = s.2.flushed ++ fl ∧ ∀ p, p ∈ fl → p = ((7 : Int), (1 : Int))) ∧
      (k ≤ msgs.length → bulk_in_count st.2.log = bulk_in_count s.2.log + k) := by
  induction msgs with
  | nil =>
    intro k i s st hst ho hc hi
    have hs : st = s := by
      cases k <;> simp [steps_state] at hst <;> exact hst.symm
    subst hs
    refine ⟨⟨ho, hc, hi⟩, ⟨[], by simp, by simp⟩, ⟨[], by simp, by simp⟩, ?_⟩
    intro hk
    have hk0 : k = 0 := by simpa using hk
    rw [hk0]; rfl
  | cons m rest ih =>
    intro k i s st hst ho hc hi
    cases k with
    | zero =>
      have hs : st = s := by simp [steps_state] at hst; exact hst.symm
      subst hs
      exact ⟨⟨ho, hc, hi⟩, ⟨[], by simp, by simp⟩, ⟨[], by simp, by simp⟩, fun _ => rfl⟩
    | succ k =>
      rcases hx : xfer_msg i m s.1 s.2 with _ | r
      · simp [steps_state, hx] at hst
      · simp only [steps_state, hx] at hst
        have hc1 : s.1.ocount + 1 ≠ 0 := by rw [hc]; decide
        obtain ⟨⟨d, hd4, hlog⟩, hro, hrc, hri, hrf⟩ := xfer_msg_facts i m s.1 s.2 r hc1 hx
        obtain ⟨hcl, ⟨ds, hds, hall⟩, ⟨fl, hfl, hflall⟩, hcnt⟩ :=
          ih k (i + 1) r.2.2 st hst hro hrc hri
        refine ⟨hcl, ⟨d :: ds, ?_, ?_⟩, ⟨((7 : Int), (1 : Int)) :: fl, ?_, ?_⟩, ?_⟩
        · rw [hds, hlog, bulk_out_data_append]
          simp [bulk_out_data]
        · intro d1 hd1
          rcases List.mem_cons.mp hd1 with h1 | h1
          · rw [h1]; exact hd4
          · exact hall d1 h1
        · rw [hfl, hrf, hc]
          simp
        · intro p hp
          rcases List.mem_cons.mp hp with h1 | h1
          · exact h1
          · exact hflall p h1
        · intro hk
          rw [hcnt (by simpa using hk), hlog, bulk_in_count_step]
          omega

/-- The message loop leaves at the first message whose step returns a negative
value, with that value, in the state the step left. -/
theorem xfer_loop_abort (msgs : List i2c_msg) :
    ∀ (k i : Nat) (s : i2c_ch341_u2c × Host) (e : Int), k < msgs.length →
      (∀ j, j < k → succeeded (step_ret j i msgs s)) → step_ret k i msgs s = some e → e < 0 →
      ∃ st ms, steps_state (k + 1) i msgs s = some st ∧
        xfer_loop i msgs s.1 s.2 = some (some e, ms, st.1, st.2) := by
  induction msgs with
  | nil => intro k i s e hk; simp at hk
  | cons m rest ih =>
    intro k i s e hk hok hfail hneg
    rcases hx : xfer_msg i m s.1 s.2 with _ | ⟨ret, pmsg1, dev1, h1⟩
    · cases k with
      | zero => simp [step_ret, hx] at hfail
      | succ k => simp [step_ret, hx] at hfail
    · cases k with
      | zero =>
        simp only [step_ret, hx, Option.map_some', Option.some.injEq] at hfail
        subst hfail
        exact ⟨(dev1, h1), pmsg1 :: rest, by simp [steps_state, hx],
          by simp [xfer_loop, hx, hneg]⟩
      | succ k =>
        have h0 : ¬ ret < 0 := by
          obtain ⟨v, hv, hv0⟩ := hok 0 (Nat.succ_pos k)
          simp only [step_ret, hx, Option.map_some', Option.some.injEq] at hv
          omega
        have hk1 : k < rest.length := by simpa using hk
        have hok1 : ∀ j, j < k → succeeded (step_ret j (i + 1) rest (dev1, h1)) := by
          intro j hj
          have hj1 := hok (j + 1) (by omega)
          simpa only [step_ret, hx] using hj1
        have hfail1 : step_ret k (i + 1) rest (dev1, h1) = some e := by
          simpa only [step_ret, hx] using hfail
        obtain ⟨st, ms, hst, hloop⟩ := ih k (i + 1) (dev1, h1) e hk1 hok1 hfail1 hneg
        refine ⟨st, pmsg1 :: ms, by simpa only [steps_state, hx] using hst, ?_⟩
        simp only [] at hloop
        simp [xfer_loop, hx, h0, hloop]

/-- The message loop runs to its end when every step returns a non-negative
value. -/
theorem xfer_loop_done (msgs : List i2c_msg) :
    ∀ (i : Nat) (s : i2c_ch341_u2c × Host),
      (∀ j, j < msgs.length → succeeded (step_ret j i msgs s)) →
      ∃ st ms, steps_state msgs.length i msgs s = some st ∧
        xfer_loop i msgs s.1 s.2 = some (none, ms, st.1, st.2) := by
  induction msgs with
  | nil => intro i s _; exact ⟨s, [], by simp [steps_state], by simp [xfer_loop]⟩
  | cons m rest ih =>
    intro i s hok
    obtain ⟨v, hv, hv0⟩ := hok 0 (by simp)
    rcases hx : xfer_msg i m s.1 s.2 with _ | ⟨ret, pmsg1, dev1, h1⟩
    · simp [step_ret, hx] at hv
    · simp only [step_ret, hx, Option.map_some', Option.some.injEq] at hv
      have h0 : ¬ ret < 0 := by omega
      have hok1 : ∀ j, j < rest.length → succeeded (step_ret j (i + 1) rest (dev1, h1)) := by
        intro j hj
        have hj1 := hok (j + 1) (by simpa using hj)
        simpa only [step_ret, hx] using hj1
      obtain ⟨st, ms, hst, hloop⟩ := ih (i + 1) (dev1, h1) hok1
      refine ⟨st, pmsg1 :: ms, by simpa only [List.length_cons, steps_state, hx] using hst, ?_⟩
      simp only [] at hloop
      simp [xfer_loop, hx, h0, hloop]

/-- A message loop that has a result ends in the state that some number of
message steps leave behind. -/
theorem xfer_loop_state (msgs : List i2c_msg) :
    ∀ (i : Nat) (s : i2c_ch341_u2c × Host)
      (r : Option Int × List i2c_msg × i2c_ch341_u2c × Host),
      xfer_loop i msgs s.1 s.2 = some r →
      ∃ k, k ≤ msgs.length ∧ steps_state k i msgs s = some r.2.2 := by
  induction msgs with
  | nil =>
    intro i s r hr
    simp only [xfer_loop, Option.some.injEq] at hr
    subst hr
    exact ⟨0, le_refl _, by simp [steps_state]⟩
  | cons m rest ih =>
    intro i s r hr
    rcases hx : xfer_msg i m s.1 s.2 with _ | ⟨ret, pmsg1, dev1, h1⟩
    · simp [xfer_loop, hx] at hr
    · by_cases hneg : ret < 0
      · simp only [xfer_loop, hx, hneg, if_true, Option.some.injEq] at hr
        subst hr
        exact ⟨1, by simp, by simp [steps_state, hx]⟩
      · rcases hy : xfer_loop (i + 1) rest dev1 h1 with _ | ⟨ro, rest1, dev2, h2⟩
        · simp [xfer_loop, hx, hneg, hy] at hr
        · simp only [xfer_loop, hx, hneg, if_false, hy, Option.some.injEq] at hr
          subst hr
          obtain ⟨k, hk, hst⟩ := ih (i + 1) (dev1, h1) (ro, rest1, dev2, h2) hy
          exact ⟨k + 1, by simpa using hk, by simpa only [steps_state, hx] using hst⟩

/-- The message loop has a result when every message is inside the bounds of
the local array of the write command. -/
theorem xfer_loop_defined (msgs : List i2c_msg) :
    (∀ m, m ∈ msgs → msg_in_bounds m) →
    ∀ (i : Nat) (dev : i2c_ch341_u2c) (h : Host), ∃ r, xfer_loop i msgs dev h = some r := by
  induction msgs with
  | nil => intro _ i dev h; exact ⟨(none, [], dev, h), by simp [xfer_loop]⟩
  | cons m rest ih =>
    intro hb i dev h
    obtain ⟨⟨ret, pmsg1, dev1, h1⟩, hx⟩ := xfer_msg_defined i m dev h (hb m (by simp))
    by_cases hneg : ret < 0
    · exact ⟨(some ret, pmsg1 :: rest, dev1, h1), by simp [xfer_loop, hx, hneg]⟩
    · obtain ⟨⟨ro, rest1, dev2, h2⟩, hy⟩ :=
        ih (fun m1 hm1 => hb m1 (List.mem_cons_of_mem _ hm1)) (i + 1) dev1 h1
      exact ⟨(ro, pmsg1 :: rest1, dev2, h2), by simp [xfer_loop, hx, hneg, hy]⟩

/-! ## The transaction: `ch341_usb_xfer` -/

/-- A transaction whose start command failed ends there. -/
theorem xfer_start_failed (dev : i2c_ch341_u2c) (h : Host) (msgs : List i2c_msg)
    (hs : start_ret dev h < 0) :
    ch341_usb_xfer dev h msgs =
      some ((ch341_i2c_start dev h).1, msgs, (ch341_i2c_start dev h).2.1,
        (ch341_i2c_start dev h).2.2) := by
  rcases hst : ch341_i2c_start dev h with ⟨ret0, dev0, h0⟩
  simp only [start_ret, hst] at hs
  simp [ch341_usb_xfer, hst, hs]

/-- A transaction whose start command succeeded: the result of the message
loop, then the stop command, whose error is returned only when no error was
recorded before. -/
theorem xfer_of_loop (dev : i2c_ch341_u2c) (h : Host) (msgs : List i2c_msg)
    (ro : Option Int) (ms : List i2c_msg) (d1 : i2c_ch341_u2c) (h1 : Host)
    (hs : 0 ≤ start_ret dev h)
    (hl : xfer_loop 0 msgs (ch341_i2c_start dev h).2.1 (ch341_i2c_start dev h).2.2 =
      some (ro, ms, d1, h1)) :
    ch341_usb_xfer dev h msgs =
      some ((if (ch341_i2c_stop d1 h1).1 < 0 ∧ ro.getD (msgs.length : Int) ≥ 0 then
          (ch341_i2c_stop d1 h1).1 else ro.getD (msgs.length : Int)),
        ms, (ch341_i2c_stop d1 h1).2.1, (ch341_i2c_stop d1 h1).2.2) := by
  rcases hst : ch341_i2c_start dev h with ⟨ret0, dev0, h0⟩
  simp only [start_ret, hst] at hs hl
  have hnot : ¬ ret0 < 0 := by omega
  rcases hz : ch341_i2c_stop d1 h1 with ⟨sret, dev2, h2⟩
  cases ro with
  | none => simp [ch341_usb_xfer, hst, hnot, hl, hz]
  | some e => simp [ch341_usb_xfer, hst, hnot, hl, hz]

/-- The transaction has a result when every message is inside the bounds of the
local array of the write command. -/
theorem xfer_defined (dev : i2c_ch341_u2c) (h : Host) (msgs : List i2c_msg)
    (hb : ∀ m, m ∈ msgs → msg_in_bounds m) : ∃ r, ch341_usb_xfer dev h msgs = some r := by
  by_cases hs : start_ret dev h < 0
  · exact ⟨_, xfer_start_failed dev h msgs hs⟩
  · obtain ⟨⟨ro, ms, d1, h1⟩, hl⟩ := xfer_loop_defined msgs hb 0
      (ch341_i2c_start dev h).2.1 (ch341_i2c_start dev h).2.2
    exact ⟨_, xfer_of_loop dev h msgs ro ms d1 h1 (by omega) hl⟩

/-- A transaction whose start command succeeded and that has a result ends with
the stop command, run in the state that some number of message steps leave
behind. -/
theorem xfer_final_state (dev : i2c_ch341_u2c) (h : Host) (msgs : List i2c_msg)
    (r : Int × List i2c_msg × i2c_ch341_u2c × Host)
    (hs : 0 ≤ start_ret dev h) (hx : ch341_usb_xfer dev h msgs = some r) :
    ∃ k st, k ≤ msgs.length ∧ state_after dev h msgs k = some st ∧
      r.2.2 = (ch341_i2c_stop st.1 st.2).2 := by
  rcases hl : xfer_loop 0 msgs (ch341_i2c_start dev h).2.1 (ch341_i2c_start dev h).2.2 with
    _ | ⟨ro, ms, d1, h1⟩
  · rcases hst : ch341_i2c_start dev h with ⟨ret0, dev0, h0⟩
    simp only [start_ret, hst] at hs hl
    have hnot : ¬ ret0 < 0 := by omega
    simp [ch341_usb_xfer, hst, hnot, hl] at hx
  · rw [xfer_of_loop dev h msgs ro ms d1 h1 hs hl] at hx
    obtain ⟨k, hk, hst⟩ := xfer_loop_state msgs 0 (ch341_i2c_start dev h).2 _ hl
    refine ⟨k, (d1, h1), hk, hst, ?_⟩
    cases hx
    rfl

/-- C1: `ch341_usb_xfer` returns the error of the first step that failed, in
the order start, message 0 .. num-1, stop, and num when no step failed.  A
failed start is returned as it is; a failed message step is returned whatever
the stop command does afterwards; a failed stop is returned only when every
step before it succeeded.  A step succeeds or fails when it returns; the write
command of more than 250 bytes, which stores past the end of its local array,
does neither. -/
theorem C1_xfer_first_error (dev : i2c_ch341_u2c) (h : Host) (msgs : List i2c_msg) :
    (start_ret dev h < 0 →
      (ch341_usb_xfer dev h msgs).map (fun r => r.1) = some (start_ret dev h)) ∧
    (0 ≤ start_ret dev h → ∀ (k : Nat) (e : Int), k < msgs.length →
      (∀ j, j < k → succeeded (msg_ret dev h msgs j)) →
      msg_ret dev h msgs k = some e → e < 0 →
      (ch341_usb_xfer dev h msgs).map (fun r => r.1) = some e) ∧
    (0 ≤ start_ret dev h → (∀ j, j < msgs.length → succeeded (msg_ret dev h msgs j)) →
      ∃ s, stop_ret dev h msgs msgs.length = some s ∧
        (s < 0 → (ch341_usb_xfer dev h msgs).map (fun r => r.1) = some s) ∧
        (0 ≤ s →
          (ch341_usb_xfer dev h msgs).map (fun r => r.1) = some (msgs.length : Int))) := by
  refine ⟨?_, ?_, ?_⟩
  · intro hneg
    rw [xfer_start_failed dev h msgs hneg]
    rfl
  · intro hpos k e hk hok hfail hneg
    obtain ⟨st, ms, -, hloop⟩ :=
      xfer_loop_abort msgs k 0 (ch341_i2c_start dev h).2 e hk hok hfail hneg
    rw [xfer_of_loop dev h msgs (some e) ms st.1 st.2 hpos hloop]
    have hnn : ¬ (0 ≤ e) := by omega
    simp [hnn]
  · intro hpos hok
    obtain ⟨st, ms, hst, hloop⟩ := xfer_loop_done msgs 0 (ch341_i2c_start dev h).2 hok
    refine ⟨(ch341_i2c_stop st.1 st.2).1, by simp [stop_ret, state_after, hst], ?_, ?_⟩
    · intro hneg
      rw [xfer_of_loop dev h msgs none ms st.1 st.2 hpos hloop]
      simp [hneg]
    · intro hnn
      have hsn : ¬ (ch341_i2c_stop st.1 st.2).1 < 0 := by omega
      rw [xfer_of_loop dev h msgs none ms st.1 st.2 hpos hloop]
      simp [hsn]

theorem C1_xfer_first_error_witness :
    (ch341_usb_xfer dev_zero (host_script [⟨0, []⟩, ⟨-5, []⟩, ⟨0, [0]⟩, ⟨-110, []⟩])
      [msg_write_one]).map (fun r => r.1) = some (-5) :=
  (C1_xfer_first_error dev_zero (host_script [⟨0, []⟩, ⟨-5, []⟩, ⟨0, [0]⟩, ⟨-110, []⟩])
    [msg_write_one]).2.1 (by decide) 0 (-5) (by decide) (fun j hj => absurd hj (by omega))
    (by decide) (by decide)

/-! ## The bytes of a message command -/

/-- A transaction of one message whose start command succeeded: the OUT writes
are the start bytes, the command of the message, and the stop bytes. -/
theorem xfer_single_out (dev : i2c_ch341_u2c) (h : Host) (m : i2c_msg) (d : List Nat)
    (hs : 0 ≤ start_ret dev h)
    (hm : ∀ (dev0 : i2c_ch341_u2c) (h0 : Host), dev0.ocount + 1 ≠ 0 →
      ∃ r, xfer_msg 0 m dev0 h0 = some r ∧
        r.2.2.2.log = h0.log ++ [UsbCall.bulkOut d, UsbCall.bulkIn]) :
    (ch341_usb_xfer dev h [m]).map (fun r => bulk_out_data r.2.2.2.log) =
      some (bulk_out_data h.log ++ [[0xAA, 0x74, 0x00], d, [0xAA, 0x75, 0x00]]) := by
  obtain ⟨hslog, hsoc, hsil⟩ := start_out dev h (ocount_of_start_ok dev h hs)
  have hc0 : (ch341_i2c_start dev h).2.1.ocount + 1 ≠ 0 := by rw [hsoc]; decide
  obtain ⟨⟨ret, pmsg1, dev1, h1⟩, hx, hmlog⟩ := hm _ (ch341_i2c_start dev h).2.2 hc0
  obtain ⟨-, -, hmoc, hmil, -⟩ := xfer_msg_facts 0 m _ _ _ hc0 hx
  simp only [] at hmlog hmoc hmil
  obtain ⟨-, hplog, -, -⟩ := stop_facts dev1 h1 (by rw [hmoc]; decide) hmil
  have hloop : ∃ ro, xfer_loop 0 [m] (ch341_i2c_start dev h).2.1 (ch341_i2c_start dev h).2.2 =
      some (ro, [pmsg1], dev1, h1) := by
    by_cases hr : ret < 0
    · exact ⟨some ret, by simp [xfer_loop, hx, hr]⟩
    · exact ⟨none, by simp [xfer_loop, hx, hr]⟩
  obtain ⟨ro, hl⟩ := hloop
  rw [xfer_of_loop dev h [m] ro [pmsg1] dev1 h1 hs hl]
  simp only [Option.map_some', Option.some.injEq]
  rw [hplog, hmlog, bulk_out_data_append, bulk_out_data_append, hslog]
  simp [bulk_out_data]

theorem shl_addr_write (a : Nat) (ha : a ≤ 0x7F) : ((a <<< 1) % 256) &&& 0xfe = a <<< 1 := by
  interval_cases a <;> rfl

theorem shl_addr_read (a : Nat) (ha : a ≤ 0x7F) : ((a <<< 1) % 256) ||| 0x01 = (a <<< 1) ||| 1 := by
  have hlt : a <<< 1 < 256 := by
    rw [Nat.shiftLeft_eq]
    omega
  rw [Nat.mod_eq_of_lt hlt]

/-- C3 fails at a two-byte payload: `ch341_usb_cmd_write_addr` hands 7 bytes to
the bulk OUT write, not `2 + 6 = 8`; the end byte `0x00` is cut off. -/
theorem C3_write_two_bytes_cut_off :
    (ch341_usb_cmd_write_addr dev_zero (host_ok [0]) 0xA0 [0x10, 0x11] 2).map
        (fun r => r.2.2.log) =
      some [UsbCall.bulkOut [0xAA, 0x74, 0x82, 0xA0, 0x10, 0x11, 0x75], UsbCall.bulkIn] := by
  decide

/-- C4: a one-byte write message to a 7-bit address `a`, processed by
`ch341_usb_xfer` (the start command succeeded), is handed to the bulk OUT write
as the 7 bytes `[0xAA, 0x74, 0x81, a << 1, d, 0x75, 0x00]`, between the start
and the stop command; bit 0 of `a << 1` is clear. -/
theorem C4_write_one_byte_stream (dev : i2c_ch341_u2c) (h : Host) (a d flags : Nat)
    (ha : a ≤ 0x7F) (hwr : flags &&& I2C_M_RD = 0) (hs : 0 ≤ start_ret dev h) :
    (ch341_usb_xfer dev h [{ addr := a, flags := flags, len := 1, buf := [d] }]).map
        (fun r => bulk_out_data r.2.2.2.log) =
      some (bulk_out_data h.log ++
        [[0xAA, 0x74, 0x00], [0xAA, 0x74, 0x81, a <<< 1, d, 0x75, 0x00], [0xAA, 0x75, 0x00]]) ∧
      (a <<< 1) &&& 1 = 0 := by
  constructor
  · apply xfer_single_out dev h _ _ hs
    intro dev0 h0 hc0
    obtain ⟨r, hx, hlog⟩ := xfer_msg_write_one_log 0 a flags d dev0 h0 hwr hc0
    rw [shl_addr_write a ha] at hlog
    exact ⟨r, hx, hlog⟩
  · interval_cases a <;> rfl

theorem C4_write_one_byte_stream_witness :
    (ch341_usb_xfer dev_zero (host_ok [0])
        [{ addr := 0x50, flags := 0, len := 1, buf := [0x10] }]).map
        (fun r => bulk_out_data r.2.2.2.log) =
      some [[0xAA, 0x74, 0x00], [0xAA, 0x74, 0x81, 0xA0, 0x10, 0x75, 0x00],
        [0xAA, 0x75, 0x00]] :=
  (C4_write_one_byte_stream dev_zero (host_ok [0]) 0x50 0x10 0 (by decide) (by decide)
    (by decide)).1

/-- C5: a read message of any requested length `R` to a 7-bit address `a`,
processed by `ch341_usb_xfer` (the start command succeeded), is handed to the
bulk OUT write as the 7 bytes `[0xAA, 0x74, 0x81, (a << 1) | 1, 0xC1, 0x75, 0x00]`,
between the start and the stop command; the receive directive `0xC1` has the
top bits `0xC0`. -/
theorem C5_read_stream_seven_bytes (dev : i2c_ch341_u2c) (h : Host) (a R flags : Nat)
    (buf : List Nat) (ha : a ≤ 0x7F) (hrd : flags &&& I2C_M_RD ≠ 0)
    (hs : 0 ≤ start_ret dev h) :
    (ch341_usb_xfer dev h [{ addr := a, flags := flags, len := R, buf := buf }]).map
        (fun r => bulk_out_data r.2.2.2.log) =
      some (bulk_out_data h.log ++
        [[0xAA, 0x74, 0x00], [0xAA, 0x74, 0x81, (a <<< 1) ||| 1, 0xC1, 0x75, 0x00],
          [0xAA, 0x75, 0x00]]) ∧
      0xC1 &&& mCH341A_CMD_I2C_STM_IN = mCH341A_CMD_I2C_STM_IN := by
  constructor
  · apply xfer_single_out dev h _ _ hs
    intro dev0 h0 hc0
    obtain ⟨r, hx, hlog⟩ :=
      xfer_msg_read_log 0 { addr := a, flags := flags, len := R, buf := buf } dev0 h0 hrd hc0
    dsimp only at hlog
    rw [shl_addr_read a ha] at hlog
    exact ⟨r, hx, hlog⟩
  · rfl

theorem C5_read_stream_seven_bytes_witness :
    (ch341_usb_xfer dev_zero (host_ok [0x42, 0])
        [{ addr := 0x50, flags := I2C_M_RD, len := 1, buf := [0] }]).map
        (fun r => bulk_out_data r.2.2.2.log) =
      some [[0xAA, 0x74, 0x00], [0xAA, 0x74, 0x81, 0xA1, 0xC1, 0x75, 0x00],
        [0xAA, 0x75, 0x00]] :=
  (C5_read_stream_seven_bytes dev_zero (host_ok [0x42, 0]) 0x50 1 I2C_M_RD [0] (by decide)
    (by decide) (by decide)).1

/-- C6 fails at a requested length of 2: the receive directive handed to the
bulk OUT write is `0xC1`, not `0xC0 | 2 = 0xC2`. -/
theorem C6_read_two_directive_is_one :
    (ch341_usb_xfer dev_zero (host_ok [0x42, 0x43, 0]) [msg_read 2]).map
        (fun r => bulk_out_data r.2.2.2.log) =
      some [[0xAA, 0x74, 0x00], [0xAA, 0x74, 0x81, 0xA1, 0xC1, 0x75, 0x00],
        [0xAA, 0x75, 0x00]] ∧
      (0xC1 : Nat) ≠ mCH341A_CMD_I2C_STM_IN ||| 2 := by
  decide

/-! ## The copy loop of a read message -/

/-- C2 fails: after a successful one-byte read the buffer of the message holds
the content of the never-assigned local `byte`, whatever payload byte `p` the
response frame `[p, 0x00]` carried. -/
theorem C2_read_buffer_is_stack_byte (u : Nat → Nat → Nat) (p : Nat) :
    (ch341_usb_xfer dev_zero
        { reply := fun _ => { ret := 0, frame := [p, 0x00] }, stack_byte := u, log := [] }
        [msg_read 1]).map (fun r => r.1) = some 1 ∧
      (ch341_usb_xfer dev_zero
        { reply := fun _ => { ret := 0, frame := [p, 0x00] }, stack_byte := u, log := [] }
        [msg_read 1]).map (fun r => r.2.1) =
        some [{ addr := 0x50, flags := I2C_M_RD, len := 1, buf := [u 0 0 % 256] }] := by
  constructor <;> rfl

/-- C18 fails: the length byte of a block read is the never-assigned local
`byte`, not the first byte `p` of the response payload.  With 0 on the stack
the call returns `-EPROTO` for every `p`; with 3 on the stack it succeeds and
extends the length by 3 for every `p`. -/
theorem C18_length_byte_is_stack_byte (p : Nat) :
    (ch341_usb_xfer dev_zero (host_stack [p, 0x00] 0) [msg_recv_len]).map (fun r => r.1) =
      some (- EPROTO) ∧
    (ch341_usb_xfer dev_zero (host_stack [p, 0x00] 3) [msg_recv_len]).map (fun r => r.1) =
      some 1 ∧
    (ch341_usb_xfer dev_zero (host_stack [p, 0x00] 3) [msg_recv_len]).map
        (fun r => r.2.1.map i2c_msg.len) = some [4] := by
  refine ⟨?_, ?_, ?_⟩ <;> rfl

/-! ## Bulk IN reads of a transaction -/

/-- C7 (amended): from a session that expects no response (`ilen = 0`), the
number of bulk IN reads made by one call of `ch341_usb_xfer` is the number of
message steps attempted, whatever the direction of the messages and whatever
the transport answers (a failing OUT write included): none when the start
command fails, `k + 1` when message `k` is the first whose step fails, and
`num` when every message step succeeds. -/
theorem C7_reads_per_attempted_message (dev : i2c_ch341_u2c) (h : Host)
    (msgs : List i2c_msg) (hi : dev.ilen = 0) :
    (start_ret dev h < 0 →
      (ch341_usb_xfer dev h msgs).map (fun r => bulk_in_count r.2.2.2.log) =
        some (bulk_in_count h.log)) ∧
    (0 ≤ start_ret dev h → ∀ (k : Nat) (e : Int), k < msgs.length →
      (∀ j, j < k → succeeded (msg_ret dev h msgs j)) →
      msg_ret dev h msgs k = some e → e < 0 →
      (ch341_usb_xfer dev h msgs).map (fun r => bulk_in_count r.2.2.2.log) =
        some (bulk_in_count h.log + (k + 1))) ∧
    (0 ≤ start_ret dev h → (∀ j, j < msgs.length → succeeded (msg_ret dev h msgs j)) →
      (ch341_usb_xfer dev h msgs).map (fun r => bulk_in_count r.2.2.2.log) =
        some (bulk_in_count h.log + msgs.length)) := by
  by_cases hc1 : dev.ocount + 1 = 0
  · refine ⟨?_, fun hpos => absurd hc1 (ocount_of_start_ok dev h hpos),
      fun hpos => absurd hc1 (ocount_of_start_ok dev h hpos)⟩
    intro hneg
    rw [xfer_start_failed dev h msgs hneg]
    simp [ch341_i2c_start, ch341_usb_cmd_msg, ch341_write_cmd, ch341_usb_transfer, hc1]
  obtain ⟨-, hslog, hsoc, hsil⟩ := start_facts dev h hc1 hi
  have hsol := start_olen dev h hc1
  have hcount0 : bulk_in_count (ch341_i2c_start dev h).2.2.log = bulk_in_count h.log := by
    rw [hslog, bulk_in_count_out]
  refine ⟨?_, ?_, ?_⟩
  · intro hneg
    rw [xfer_start_failed dev h msgs hneg]
    simp [hcount0]
  · intro hpos k e hk hok hfail hneg
    obtain ⟨st, ms, hst, hloop⟩ :=
      xfer_loop_abort msgs k 0 (ch341_i2c_start dev h).2 e hk hok hfail hneg
    obtain ⟨⟨-, hoc, hil⟩, -, -, hcnt⟩ :=
      steps_state_facts msgs (k + 1) 0 (ch341_i2c_start dev h).2 st hst hsol hsoc hsil
    obtain ⟨-, hplog, -, -⟩ := stop_facts st.1 st.2 (by rw [hoc]; decide) hil
    rw [xfer_of_loop dev h msgs (some e) ms st.1 st.2 hpos hloop]
    simp only [Option.map_some', Option.some.injEq]
    rw [hplog, bulk_in_count_out, hcnt (by omega), hcount0]
  · intro hpos hok
    obtain ⟨st, ms, hst, hloop⟩ := xfer_loop_done msgs 0 (ch341_i2c_start dev h).2 hok
    obtain ⟨⟨-, hoc, hil⟩, -, -, hcnt⟩ :=
      steps_state_facts msgs msgs.length 0 (ch341_i2c_start dev h).2 st hst hsol hsoc hsil
    obtain ⟨-, hplog, -, -⟩ := stop_facts st.1 st.2 (by rw [hoc]; decide) hil
    rw [xfer_of_loop dev h msgs none ms st.1 st.2 hpos hloop]
    simp only [Option.map_some', Option.some.injEq]
    rw [hplog, bulk_in_count_out, hcnt (le_refl _), hcount0]

/-- C7 as stated fails: a transaction of one write message and no read message
makes one bulk IN read. -/
theorem C7_counterexample_write_message :
    (ch341_usb_xfer dev_zero (host_ok [0]) [msg_write_one]).map
        (fun r => bulk_in_count r.2.2.2.log) = some 1 ∧
      read_msg_count [msg_write_one] = 0 := by
  decide

theorem C7_reads_per_attempted_message_witness :
    (ch341_usb_xfer dev_zero (host_ok [0]) [msg_write_one]).map
        (fun r => bulk_in_count r.2.2.2.log) =
      some (bulk_in_count (host_ok [0]).log + [msg_write_one].length) :=
  (C7_reads_per_attempted_message dev_zero (host_ok [0]) [msg_write_one]
    (by decide)).2.2 (by decide)
    (fun j hj => ⟨0, by
      have hj0 : j = 0 := by simpa using hj
      rw [hj0]
      decide, le_refl _⟩)

/-! ## Long writes -/

/-- C14 as stated fails: a write of 123 payload bytes (encoded size 129) is not
rejected; a bulk OUT write and a bulk IN read are made and the result is that
of the transfer, 0. -/
theorem C14_counterexample_long_write :
    (ch341_usb_cmd_write_addr dev_zero (host_ok [0]) 0xA0 (List.replicate 123 0x11) 123).map
        (fun r => r.1) = some 0 ∧
      (ch341_usb_cmd_write_addr dev_zero (host_ok [0]) 0xA0 (List.replicate 123 0x11) 123).map
        (fun r => r.2.2.log) =
        some [UsbCall.bulkOut [0xAA, 0x74, 0xFB, 0xA0, 0x11, 0x11, 0x11], UsbCall.bulkIn] := by
  decide

/-- C14 (amended): `ch341_usb_cmd_write_addr` has no size check.  For every
payload length up to 250, the longest that fits the local array of the
command, in a session where the command is enqueued (`ocount` not -1), the
command is flushed: one bulk OUT write and one bulk IN read are made, and the
result is decided by the answers of the transport alone: the error of the OUT
write, else the error of the IN read, else 0 for an empty frame, else the
decoding of the status byte that ends the frame. -/
theorem C14_write_not_rejected (dev : i2c_ch341_u2c) (h : Host) (addr datalen : Nat)
    (data : List Nat) (hc : dev.ocount + 1 ≠ 0) (hb : datalen ≤ 250) :
    ∃ (r : Int × i2c_ch341_u2c × Host) (d : List Nat),
      ch341_usb_cmd_write_addr dev h addr data datalen = some r ∧
      r.2.2.log = h.log ++ [UsbCall.bulkOut d, UsbCall.bulkIn] ∧
      (next_ret h < 0 → r.1 = next_ret h) ∧
      (0 ≤ next_ret h → second_ret h ≠ 0 → r.1 = second_ret h) ∧
      (0 ≤ next_ret h → second_ret h = 0 → (second_frame h).take DIOLAN_INBUF_LEN = [] →
        r.1 = 0) ∧
      (0 ≤ next_ret h → second_ret h = 0 → ∀ (pre : List Nat) (s : Nat),
        (second_frame h).take DIOLAN_INBUF_LEN = pre ++ [s] →
        r.1 = if s = RESP_NACK then - EIO
          else if s = RESP_TIMEOUT then - ETIMEDOUT
          else if s = RESP_OK then (pre.length : Int)
          else - EIO) := by
  obtain ⟨msg3, -, hw⟩ := write_addr_some dev h addr datalen data hb
  have hne : ((datalen : Int) + 1) ≠ 0 := by omega
  refine ⟨_, (memcpy dev.obuffer msg3 7).take 7, hw, ?_,
    cmd_msg_cases { dev with ilen := (datalen : Int) + 1 } h msg3 7 hc (by decide) hne⟩
  rw [cmd_msg_log { dev with ilen := (datalen : Int) + 1 } h _ _ hc (by decide),
    if_pos (show _ from hne)]

theorem C14_write_not_rejected_witness :
    ∃ (r : Int × i2c_ch341_u2c × Host) (d : List Nat),
      ch341_usb_cmd_write_addr dev_zero (host_ok [0]) 0xA0 (List.replicate 123 0x11) 123 =
        some r ∧
      r.2.2.log = (host_ok [0]).log ++ [UsbCall.bulkOut d, UsbCall.bulkIn] := by
  obtain ⟨r, d, h1, h2, -⟩ :=
    C14_write_not_rejected dev_zero (host_ok [0]) 0xA0 123 (List.replicate 123 0x11)
      (by decide) (by decide)
  exact ⟨r, d, h1, h2⟩

/-! ## Start and stop commands of a transaction -/

theorem count_zero_of_length (ds : List (List Nat)) (a b c : Nat)
    (hall : ∀ d, d ∈ ds → 4 ≤ d.length) : ds.count [a, b, c] = 0 := by
  rw [List.count_eq_zero]
  intro hmem
  have h4 := hall _ hmem
  simp at h4

/-- C13 (amended): one call of `ch341_usb_xfer` issues the start command once
(one OUT write of `[0xAA, 0x74, 0x00]` when the command is enqueued, `ocount`
not -1).  When the start command failed the call returns without the stop
command `[0xAA, 0x75, 0x00]`.  When the start command succeeded, every call
that returns has issued the stop command once, whatever message step failed;
the call returns when no write message is longer than 250 bytes. -/
theorem C13_start_once_stop_after_start (dev : i2c_ch341_u2c) (h : Host)
    (msgs : List i2c_msg) :
    (start_ret dev h < 0 → ∃ r, ch341_usb_xfer dev h msgs = some r ∧
      out_count [0xAA, 0x75, 0x00] r.2.2.2.log = out_count [0xAA, 0x75, 0x00] h.log ∧
      (dev.ocount + 1 ≠ 0 →
        out_count [0xAA, 0x74, 0x00] r.2.2.2.log = out_count [0xAA, 0x74, 0x00] h.log + 1)) ∧
    (0 ≤ start_ret dev h → ∀ r, ch341_usb_xfer dev h msgs = some r →
      out_count [0xAA, 0x74, 0x00] r.2.2.2.log = out_count [0xAA, 0x74, 0x00] h.log + 1 ∧
      out_count [0xAA, 0x75, 0x00] r.2.2.2.log = out_count [0xAA, 0x75, 0x00] h.log + 1) ∧
    ((∀ m, m ∈ msgs → msg_in_bounds m) → ∃ r, ch341_usb_xfer dev h msgs = some r) := by
  refine ⟨?_, ?_, xfer_defined dev h msgs⟩
  · intro hs
    refine ⟨_, xfer_start_failed dev h msgs hs, ?_, ?_⟩
    · by_cases hc : dev.ocount + 1 = 0
      · simp [ch341_i2c_start, ch341_usb_cmd_msg, ch341_write_cmd, ch341_usb_transfer, hc]
      · simp only [out_count, (start_out dev h hc).1, List.count_append]
        simp
    · intro hc
      simp only [out_count, (start_out dev h hc).1, List.count_append]
      simp
  · intro hs r hx
    have hc := ocount_of_start_ok dev h hs
    obtain ⟨hslog, hsoc, hsil⟩ := start_out dev h hc
    obtain ⟨k, st, -, hst, hr⟩ := xfer_final_state dev h msgs r hs hx
    obtain ⟨⟨-, hoc, hil⟩, ⟨ds, hds, hall⟩, -, -⟩ :=
      steps_state_facts msgs k 0 (ch341_i2c_start dev h).2 st hst (start_olen dev h hc)
        hsoc hsil
    obtain ⟨-, hplog, -, -⟩ := stop_facts st.1 st.2 (by rw [hoc]; decide) hil
    have hlog : bulk_out_data r.2.2.2.log =
        bulk_out_data h.log ++ [[0xAA, 0x74, 0x00]] ++ ds ++ [[0xAA, 0x75, 0x00]] := by
      rw [hr, hplog, bulk_out_data_append, hds, hslog]
      simp [bulk_out_data]
    constructor
    · simp only [out_count, hlog, List.count_append, count_zero_of_length ds _ _ _ hall]
      simp
    · simp only [out_count, hlog, List.count_append, count_zero_of_length ds _ _ _ hall]
      simp

/-- C13 as stated fails: when the start command fails, the call returns without
issuing the stop command. -/
theorem C13_counterexample_start_fails :
    (ch341_usb_xfer dev_zero (host_script [⟨-110, []⟩]) [msg_write_one]).map
        (fun r => r.2.2.2.log) = some [UsbCall.bulkOut [0xAA, 0x74, 0x00]] ∧
      (ch341_usb_xfer dev_zero (host_script [⟨-110, []⟩]) [msg_write_one]).map
        (fun r => out_count [0xAA, 0x75, 0x00] r.2.2.2.log) = some 0 := by
  decide

theorem C13_start_once_stop_after_start_witness :
    ∃ r, ch341_usb_xfer dev_zero (host_script [⟨0, []⟩, ⟨-5, []⟩]) [msg_write_one] = some r ∧
      out_count [0xAA, 0x75, 0x00] r.2.2.2.log =
        out_count [0xAA, 0x75, 0x00] (host_script [⟨0, []⟩, ⟨-5, []⟩]).log + 1 :=
  (C13_start_once_stop_after_start dev_zero (host_script [⟨0, []⟩, ⟨-5, []⟩])
      [msg_write_one]).2.2 (by
        intro m hm
        rw [List.mem_singleton] at hm
        rw [hm]
        unfold msg_in_bounds
        decide) |>.elim fun r hr =>
    ⟨r, hr, ((C13_start_once_stop_after_start dev_zero (host_script [⟨0, []⟩, ⟨-5, []⟩])
      [msg_write_one]).2.1 (by decide) r hr).2⟩

/-! ## The session between commands -/

/-- The speed command: one flush with `olen = 3`, and a cleared session. -/
theorem set_speed_facts (dev : i2c_ch341_u2c) (h : Host) (speed : Nat)
    (hc : dev.ocount + 1 ≠ 0) :
    (ch341_set_speed dev h speed).2.2.flushed = h.flushed ++ [(3, dev.ocount + 1)] ∧
    (ch341_set_speed dev h speed).2.1.olen = 0 ∧ (ch341_set_speed dev h speed).2.1.ocount = 0 ∧
      (ch341_set_speed dev h speed).2.1.ilen = 0 := by
  unfold ch341_set_speed
  exact ⟨cmd_msg_flushed _ _ _ _ hc (by decide), cmd_msg_cleared _ _ _ _ hc (by decide)⟩

/-- The reads of `ch341_flush_input` make no OUT write and leave `olen`,
`ocount` and `ilen` as they are. -/
theorem flush_input_loop_facts :
    ∀ (n : Nat) (dev : i2c_ch341_u2c) (h : Host),
      (ch341_flush_input_loop n dev h).2.flushed = h.flushed ∧
      (ch341_flush_input_loop n dev h).1.olen = dev.olen ∧
      (ch341_flush_input_loop n dev h).1.ocount = dev.ocount ∧
      (ch341_flush_input_loop n dev h).1.ilen = dev.ilen := by
  intro n
  induction n with
  | zero => intro dev h; simp [ch341_flush_input_loop]
  | succ n ih =>
    intro dev h
    simp only [ch341_flush_input_loop, usb_bulk_msg_in]
    split_ifs
    · simp
    · exact ih
        { dev with ibuffer := (memcpy dev.ibuffer
            ((h.reply h.log.length).frame.take DIOLAN_INBUF_LEN)
            ((h.reply h.log.length).frame.take DIOLAN_INBUF_LEN).length) }
        { h with log := h.log ++ [UsbCall.bulkIn] }

/-- C19: from a cleared session (`olen = ocount = ilen = 0`; the proof uses
`ocount = 0` only), for every list of messages and every behaviour of the
transport, each bulk OUT write made by `ch341_usb_xfer` and by `ch341_init` is
made with the buffer length `olen` 3 or 7, never more than the 128-byte
capacity, and with `ocount = 1`, and the session is cleared again
(`olen = ocount = ilen = 0`) when the operation returns.  `ch341_init` always
returns; `ch341_usb_xfer` returns when no write message is longer than 250
bytes. -/
theorem C19_session_invariant (frequency : Nat) (dev : i2c_ch341_u2c) (h : Host)
    (msgs : List i2c_msg) (hc : dev.ocount = 0) :
    (∀ r, ch341_usb_xfer dev h msgs = some r →
      (∃ fl, r.2.2.2.flushed = h.flushed ++ fl ∧
        ∀ p, p ∈ fl → (p.1 = 3 ∨ p.1 = 7) ∧ p.1 ≤ (DIOLAN_OUTBUF_LEN : Int) ∧ p.2 = 1) ∧
      r.2.2.1.olen = 0 ∧ r.2.2.1.ocount = 0 ∧ r.2.2.1.ilen = 0) ∧
    ((∀ m, m ∈ msgs → msg_in_bounds m) → ∃ r, ch341_usb_xfer dev h msgs = some r) ∧
    ((∃ fl, (ch341_init frequency dev h).2.2.flushed = h.flushed ++ fl ∧
        ∀ p, p ∈ fl → (p.1 = 3 ∨ p.1 = 7) ∧ p.1 ≤ (DIOLAN_OUTBUF_LEN : Int) ∧ p.2 = 1) ∧
      (ch341_init frequency dev h).2.1.olen = 0 ∧
      (ch341_init frequency dev h).2.1.ocount = 0 ∧
      (ch341_init frequency dev h).2.1.ilen = 0) := by
  have hc1 : dev.ocount + 1 ≠ 0 := by rw [hc]; decide
  have h31 : ∀ p : Int × Int, p = (3, 1) →
      (p.1 = 3 ∨ p.1 = 7) ∧ p.1 ≤ (DIOLAN_OUTBUF_LEN : Int) ∧ p.2 = 1 := by
    intro p hp
    rw [hp]
    simp [DIOLAN_OUTBUF_LEN]
  have h71 : ∀ p : Int × Int, p = (7, 1) →
      (p.1 = 3 ∨ p.1 = 7) ∧ p.1 ≤ (DIOLAN_OUTBUF_LEN : Int) ∧ p.2 = 1 := by
    intro p hp
    rw [hp]
    simp [DIOLAN_OUTBUF_LEN]
  refine ⟨?_, xfer_defined dev h msgs, ?_⟩
  · intro r hx
    obtain ⟨-, hsoc, hsil⟩ := start_out dev h hc1
    have hsol := start_olen dev h hc1
    have hsfl := start_flushed dev h hc1
    rw [hc] at hsfl
    by_cases hs : 0 ≤ start_ret dev h
    · obtain ⟨k, st, -, hst, hr⟩ := xfer_final_state dev h msgs r hs hx
      obtain ⟨⟨-, hoc, hil⟩, -, ⟨fl, hfl, hall⟩, -⟩ :=
        steps_state_facts msgs k 0 (ch341_i2c_start dev h).2 st hst hsol hsoc hsil
      have hoc1 : st.1.ocount + 1 ≠ 0 := by rw [hoc]; decide
      obtain ⟨-, -, hpoc, hpil⟩ := stop_facts st.1 st.2 hoc1 hil
      have hpfl := stop_flushed st.1 st.2 hoc1
      rw [hoc] at hpfl
      rw [hr]
      refine ⟨⟨[((3 : Int), (1 : Int))] ++ fl ++ [((3 : Int), (1 : Int))], ?_, ?_⟩,
        stop_olen st.1 st.2 hoc1, hpoc, hpil⟩
      · rw [hpfl, hfl, hsfl]
        simp
      · intro p hp
        simp only [List.mem_append, List.mem_singleton] at hp
        rcases hp with (hp | hp) | hp
        · exact h31 p hp
        · exact h71 p (hall p hp)
        · exact h31 p hp
    · have hs1 : start_ret dev h < 0 := by omega
      rw [xfer_start_failed dev h msgs hs1] at hx
      cases hx
      refine ⟨⟨[((3 : Int), (1 : Int))], by rw [hsfl]; simp, ?_⟩, hsol, hsoc, hsil⟩
      intro p hp
      exact h31 p (by simpa using hp)
  · obtain ⟨hfl, hso, hsc, hsi⟩ := set_speed_facts dev h (init_speed frequency) hc1
    rw [hc] at hfl
    have hall : ∀ p, p ∈ [((3 : Int), (1 : Int))] →
        (p.1 = 3 ∨ p.1 = 7) ∧ p.1 ≤ (DIOLAN_OUTBUF_LEN : Int) ∧ p.2 = 1 := by
      intro p hp
      exact h31 p (by simpa using hp)
    rcases hx : ch341_set_speed dev h (init_speed frequency) with ⟨ret, dev1, h1⟩
    simp only [hx] at hfl hso hsc hsi
    obtain ⟨hf1, hf2, hf3, hf4⟩ := flush_input_loop_facts 10 dev1 h1
    simp only [ch341_init, hx, ch341_flush_input]
    split_ifs
    · exact ⟨⟨_, by rw [hfl]; simp, hall⟩, hso, hsc, hsi⟩
    · exact ⟨⟨_, by rw [hf1, hfl]; simp, hall⟩, by rw [hf2, hso], by rw [hf3, hsc],
        by rw [hf4, hsi]⟩

theorem C19_session_invariant_witness :
    ∃ r, ch341_usb_xfer dev_zero (host_ok [0]) [msg_write_one] = some r ∧
      (∃ fl, r.2.2.2.flushed = (host_ok [0]).flushed ++ fl ∧
        ∀ p, p ∈ fl → (p.1 = 3 ∨ p.1 = 7) ∧ p.1 ≤ (DIOLAN_OUTBUF_LEN : Int) ∧ p.2 = 1) ∧
      r.2.2.1.olen = 0 ∧ r.2.2.1.ocount = 0 ∧ r.2.2.1.ilen = 0 :=
  (C19_session_invariant 100000 dev_zero (host_ok [0]) [msg_write_one] rfl).2.1 (by
      intro m hm
      rw [List.mem_singleton] at hm
      rw [hm]
      unfold msg_in_bounds
      decide) |>.elim fun r hr =>
    ⟨r, hr, (C19_session_invariant 100000 dev_zero (host_ok [0]) [msg_write_one] rfl).1 r hr⟩

/-! ## A rejected read inside a transaction -/

/-- The step of a read message whose response frame ends in the
not-acknowledged status returns `-EIO`. -/
theorem xfer_msg_read_nack (i : Nat) (m : i2c_msg) (dev : i2c_ch341_u2c) (h : Host)
    (pre : List Nat) (hrd : m.flags &&& I2C_M_RD ≠ 0) (hc : dev.ocount + 1 ≠ 0)
    (hw : 0 ≤ next_ret h) (hr : second_ret h = 0)
    (hf : second_frame h = pre ++ [RESP_NACK]) (hlen : (pre ++ [RESP_NACK]).length ≤ 256) :
    ∃ r, xfer_msg i m dev h = some r ∧ r.1 = - EIO := by
  have htake : (second_frame h).take DIOLAN_INBUF_LEN = pre ++ [RESP_NACK] := by
    rw [hf]
    exact List.take_of_length_le hlen
  have hread : (ch341_usb_cmd_read_addr dev h ((m.addr <<< 1) % 256) m.buf (m.len % 256) 1).1 =
      - EIO := by
    unfold ch341_usb_cmd_read_addr
    simp only []
    rw [(cmd_msg_cases { dev with ilen := ((1 : Nat) : Int) } h _ 7 hc (by decide)
      (by simp)).2.2.2 hw hr pre RESP_NACK htake]
    simp
  rcases hx : ch341_usb_cmd_read_addr dev h ((m.addr <<< 1) % 256) m.buf (m.len % 256) 1 with
    ⟨ret, dev1, h1⟩
  simp only [hx] at hread
  have hneg : ret < 0 := by rw [hread]; decide
  unfold xfer_msg
  rw [if_pos hrd, hx]
  dsimp only
  rw [if_pos hneg]
  exact ⟨_, rfl, hread⟩

/-- C12: in a transaction of two messages whose start command and first step
succeed (the write of the scenario; the direction of the first message plays
no role), and whose second message is a read answered, after a successful OUT
write and IN read, by a frame (at most 256 bytes) ending in the
not-acknowledged status 0x07, `ch341_usb_xfer` returns `-EIO` and the last bulk
OUT write is the stop command `[0xAA, 0x75, 0x00]`.  `s1` is the session and
host that the first step leaves behind. -/
theorem C12_read_nack_then_stop (dev : i2c_ch341_u2c) (h : Host) (w r : i2c_msg)
    (s1 : i2c_ch341_u2c × Host) (pre : List Nat) (hrd : r.flags &&& I2C_M_RD ≠ 0)
    (hs : 0 ≤ start_ret dev h) (hw : succeeded (msg_ret dev h [w, r] 0))
    (hs1 : state_after dev h [w, r] 1 = some s1)
    (hro : 0 ≤ next_ret s1.2) (hri : second_ret s1.2 = 0)
    (hf : second_frame s1.2 = pre ++ [RESP_NACK])
    (hlen : (pre ++ [RESP_NACK]).length ≤ 256) :
    (ch341_usb_xfer dev h [w, r]).map (fun x => x.1) = some (- EIO) ∧
      (ch341_usb_xfer dev h [w, r]).map (fun x => (bulk_out_data x.2.2.2.log).getLast?) =
        some (some [0xAA, 0x75, 0x00]) := by
  have hc := ocount_of_start_ok dev h hs
  obtain ⟨-, hsoc, hsil⟩ := start_out dev h hc
  have hsol := start_olen dev h hc
  obtain ⟨⟨-, h1oc, -⟩, -, -, -⟩ :=
    steps_state_facts [w, r] 1 0 (ch341_i2c_start dev h).2 s1 hs1 hsol hsoc hsil
  obtain ⟨rr, hrr, hrret⟩ :=
    xfer_msg_read_nack 1 r s1.1 s1.2 pre hrd (by rw [h1oc]; decide) hro hri hf hlen
  have hret1 : msg_ret dev h [w, r] 1 = some (- EIO) := by
    unfold state_after at hs1
    unfold msg_ret
    rcases hx0 : xfer_msg 0 w (ch341_i2c_start dev h).2.1 (ch341_i2c_start dev h).2.2 with
      _ | r0
    · simp [steps_state, hx0] at hs1
    · simp only [steps_state, hx0, Option.some.injEq] at hs1
      simp only [step_ret, hx0]
      rw [hs1, hrr]
      simp [hrret]
  obtain ⟨st, ms, hst, hloop⟩ :=
    xfer_loop_abort [w, r] 1 0 (ch341_i2c_start dev h).2 (- EIO) (by simp)
      (by
        intro j hj
        have hj0 : j = 0 := by omega
        rw [hj0]
        exact hw)
      hret1 (by decide)
  obtain ⟨⟨-, hoc, hil⟩, -, -, -⟩ :=
    steps_state_facts [w, r] (1 + 1) 0 (ch341_i2c_start dev h).2 st hst hsol hsoc hsil
  obtain ⟨-, hplog, -, -⟩ := stop_facts st.1 st.2 (by rw [hoc]; decide) hil
  rw [xfer_of_loop dev h [w, r] (some (- EIO)) ms st.1 st.2 hs hloop]
  constructor
  · simp [ EIO]
  · simp only [Option.map_some', Option.some.injEq]
    rw [hplog, bulk_out_data_append]
    simp [bulk_out_data]

theorem C12_read_nack_then_stop_witness :
    (ch341_usb_xfer dev_zero
        (host_script [⟨0, []⟩, ⟨0, []⟩, ⟨0, [0x00]⟩, ⟨0, []⟩, ⟨0, [0x07]⟩, ⟨0, []⟩])
        [msg_write_one, msg_read 1]).map (fun x => x.1) = some (- EIO) ∧
      (ch341_usb_xfer dev_zero
        (host_script [⟨0, []⟩, ⟨0, []⟩, ⟨0, [0x00]⟩, ⟨0, []⟩, ⟨0, [0x07]⟩, ⟨0, []⟩])
        [msg_write_one, msg_read 1]).map
          (fun x => (bulk_out_data x.2.2.2.log).getLast?) = some (some [0xAA, 0x75, 0x00]) :=
  C12_read_nack_then_stop dev_zero
    (host_script [⟨0, []⟩, ⟨0, []⟩, ⟨0, [0x00]⟩, ⟨0, []⟩, ⟨0, [0x07]⟩, ⟨0, []⟩])
    msg_write_one (msg_read 1) _ [] (by decide) (by decide) ⟨0, by decide, le_refl _⟩ rfl
    (by decide) (by decide) (by decide) (by decide)

end CH341
